import Mathlib

/-!
Verification of the grid/connectivity engine of the slingshot bubble-puzzle game
(`src/components/GeminiSlingshot.tsx`): the hex-offset adjacency relation, the
same-color flood-fill matcher, the orphan ("floating") detector, the scoring of
confirmed matches, the spawn/row-shift policy and the snap-to-cell insertion.

Machine reals of the source are modelled over `ℚ`; the irrational layout
constant `ROW_HEIGHT = BUBBLE_RADIUS * sqrt 3` is a parameter of the geometry
functions.  Calls to `Math.random()` are modelled by explicit choice oracles.
-/

namespace Slingshot

/-- The fixed palette of sphere colors (`BubbleColor` in `types.ts`). -/
inductive BubbleColor where
  | red
  | blue
  | green
  | yellow
  | purple
  | orange
deriving DecidableEq, Repr

/-- Per-color point values, the `points` field of `COLOR_CONFIG`. -/
def points : BubbleColor → Nat
  | .red => 100
  | .blue => 150
  | .green => 200
  | .yellow => 250
  | .purple => 300
  | .orange => 500

/-- `COLOR_KEYS`: the palette in declaration order. -/
def COLOR_KEYS : List BubbleColor := [.red, .blue, .green, .yellow, .purple, .orange]

/-- A placed sphere (`Bubble` in `types.ts`).  Source ids are strings used only
for equality tests; they are modelled as `Nat`.  The optional `isFloating`
field is `false` when absent; the ad-hoc `vx`/`vy` animation velocities given
to floating bubbles are rendering-only and omitted. -/
structure Bubble where
  id : Nat
  row : Int
  col : Int
  x : ℚ
  y : ℚ
  color : BubbleColor
  active : Bool
  isFloating : Bool := false
  popTime : Option ℚ := none
deriving DecidableEq, Repr

/-- `isNeighbor` from `GeminiSlingshot.tsx` (lines 95-105).  JS `%` is a
truncated remainder, so the test `a.row % 2 !== 0` holds exactly on odd
integers, as does Lean's `a.row % 2 ≠ 0` with `Int.emod`. -/
def isNeighbor (a b : Bubble) : Bool :=
  let dr := b.row - a.row
  let dc := b.col - a.col
  if dr.natAbs > 1 then false
  else if dr == 0 then dc.natAbs == 1
  else if a.row % 2 != 0 then dc == 0 || dc == 1
  else dc == -1 || dc == 0

/-- Propositional unfolding of `isNeighbor`. -/
theorem isNeighbor_iff (a b : Bubble) :
    isNeighbor a b = true ↔
      (b.row - a.row).natAbs ≤ 1 ∧
      ((b.row = a.row ∧ (b.col - a.col).natAbs = 1) ∨
       (b.row ≠ a.row ∧ a.row % 2 ≠ 0 ∧ (b.col - a.col = 0 ∨ b.col - a.col = 1)) ∨
       (b.row ≠ a.row ∧ a.row % 2 = 0 ∧ (b.col - a.col = -1 ∨ b.col - a.col = 0))) := by
  simp only [isNeighbor]
  split_ifs with h1 h2 h3
  · simp only [Bool.false_eq_true, false_iff, not_and, not_or]
    omega
  · simp only [beq_iff_eq] at h2
    simp only [beq_iff_eq]
    omega
  · simp only [beq_iff_eq] at h2
    simp only [bne_iff_ne, ne_eq] at h3
    simp only [Bool.or_eq_true, beq_iff_eq]
    omega
  · simp only [beq_iff_eq] at h2
    simp only [bne_iff_ne, ne_eq, not_not] at h3
    simp only [Bool.or_eq_true, beq_iff_eq]
    omega

/-- Helper bubble with only grid coordinates, for concrete counterexamples. -/
def mkCell (id : Nat) (row col : Int) (color : BubbleColor := .red) : Bubble :=
  { id := id, row := row, col := col, x := 0, y := 0, color := color, active := true }

/-- The adjacency rule exactly as the specification's §4.1 words it, reading
"the lower-row cell" as the cell with the smaller row index and `dr`, `dc` as
`b - a` (as claim C1 fixes them): never when `|dr| > 1`; for `dr = 0` iff
`|dc| = 1`; for `dr = ±1`, iff `dc ∈ {0,1}` when the smaller row index is odd
and iff `dc ∈ {-1,0}` when it is even. -/
def specNeighborRule (a b : Bubble) : Bool :=
  let dr := b.row - a.row
  let dc := b.col - a.col
  if dr.natAbs > 1 then false
  else if dr == 0 then dc.natAbs == 1
  else if (min a.row b.row) % 2 != 0 then dc == 0 || dc == 1
  else dc == -1 || dc == 0

/-- The amended adjacency rule: for `dr = ±1` the two rows have opposite
parity, and the cells are neighbors iff the even-row cell's column minus the
odd-row cell's column is `0` or `1` — i.e. the spec's parity clause is correct
only when `dc` is measured from the odd-row cell, not from `a`. -/
def specNeighborRuleAmended (a b : Bubble) : Bool :=
  let dr := b.row - a.row
  if dr.natAbs > 1 then false
  else if dr == 0 then (b.col - a.col).natAbs == 1
  else
    let evenCol := if a.row % 2 == 0 then a.col else b.col
    let oddCol := if a.row % 2 == 0 then b.col else a.col
    evenCol - oddCol == 0 || evenCol - oddCol == 1

/-- Propositional unfolding of `specNeighborRuleAmended`. -/
theorem specNeighborRuleAmended_iff (a b : Bubble) :
    specNeighborRuleAmended a b = true ↔
      (b.row - a.row).natAbs ≤ 1 ∧
      ((b.row = a.row ∧ (b.col - a.col).natAbs = 1) ∨
       (b.row ≠ a.row ∧ a.row % 2 = 0 ∧ (a.col - b.col = 0 ∨ a.col - b.col = 1)) ∨
       (b.row ≠ a.row ∧ a.row % 2 ≠ 0 ∧ (b.col - a.col = 0 ∨ b.col - a.col = 1))) := by
  simp only [specNeighborRuleAmended]
  split_ifs with h1 h2 h3
  · simp only [Bool.false_eq_true, false_iff, not_and, not_or]
    omega
  · simp only [beq_iff_eq] at h2
    simp only [beq_iff_eq]
    omega
  · simp only [beq_iff_eq] at h2
    simp only [beq_iff_eq] at h3
    simp only [Bool.or_eq_true, beq_iff_eq]
    omega
  · simp only [beq_iff_eq] at h2
    simp only [beq_iff_eq] at h3
    simp only [Bool.or_eq_true, beq_iff_eq]
    omega

/-! ### Worklist loops: orphan detection and flood-fill matching

`findFloatingBubbles` and `checkMatches` are `while` loops over a worklist
with a visited set.  They are modelled by well-founded recursion; the measure
counts the ids not yet seen, so the next three auxiliary results are needed
before the definitions. -/

/-- Ids of `bs` that are not yet in `seen`: the worklist termination measure. -/
def freshIds (bs : List Bubble) (seen : List Nat) : Finset Nat :=
  (bs.map Bubble.id).toFinset \ seen.toFinset

theorem freshIds_subset {bs bs' : List Bubble} {seen seen' : List Nat}
    (hb : ∀ b ∈ bs', b.id ∈ bs.map Bubble.id) (hs : ∀ x ∈ seen, x ∈ seen') :
    freshIds bs' seen' ⊆ freshIds bs seen := by
  intro x hx
  simp only [freshIds, Finset.mem_sdiff, List.mem_toFinset, List.mem_map] at hx ⊢
  obtain ⟨⟨b, hbmem, rfl⟩, hnot⟩ := hx
  refine ⟨?_, fun h => hnot (hs _ h)⟩
  obtain ⟨c, hc, hcid⟩ := List.mem_map.mp (hb b hbmem)
  exact ⟨c, hc, hcid⟩

theorem card_lt_of_witness {s t : Finset Nat} (hsub : s ⊆ t) (w : Nat) (hw : w ∈ t)
    (hws : w ∉ s) : s.card < t.card :=
  Finset.card_lt_card (Finset.ssubset_iff_subset_ne.mpr ⟨hsub, fun h => hws (h ▸ hw)⟩)

/-- The BFS of `findFloatingBubbles` (lines 552-563): `queue` is the worklist
(the JS array with its advancing `head` pointer), `connected` the set of ids
known to be connected to the ceiling.  A popped bubble's not-yet-connected
active, non-floating neighbors are enqueued and marked connected. -/
def bfsLoop (allBubbles : List Bubble) : List Bubble → List Nat → List Nat
  | [], connected => connected
  | curr :: rest, connected =>
    let neighbors := allBubbles.filter
      (fun b => b.active && !b.isFloating && !connected.contains b.id && isNeighbor curr b)
    bfsLoop allBubbles (rest ++ neighbors) (connected ++ neighbors.map Bubble.id)
termination_by queue connected =>
  (allBubbles.length + 1) * (freshIds (queue ++ allBubbles) connected).card + queue.length
decreasing_by
  by_cases hemp :
      (allBubbles.filter
        (fun b => b.active && !b.isFloating && !connected.contains b.id && isNeighbor curr b)) = []
  · rw [hemp]
    simp only [List.append_nil, List.map_nil]
    have hsub : freshIds (rest ++ allBubbles) connected ⊆
        freshIds ((curr :: rest) ++ allBubbles) connected := by
      apply freshIds_subset
      · intro b hb
        simp only [List.map_append, List.mem_append, List.mem_map] at *
        rcases hb with h | h
        · exact Or.inl ⟨b, List.mem_cons_of_mem _ h, rfl⟩
        · exact Or.inr ⟨b, h, rfl⟩
      · exact fun x h => h
    have hm := Nat.mul_le_mul_left (allBubbles.length + 1) (Finset.card_le_card hsub)
    simp only [List.length_cons]
    omega
  · obtain ⟨n, hn⟩ := List.exists_mem_of_ne_nil _ hemp
    have hn' := hn
    rw [List.mem_filter] at hn'
    obtain ⟨hnmem, hcond⟩ := hn'
    simp only [Bool.and_eq_true, Bool.not_eq_true'] at hcond
    have hnid : n.id ∉ connected := by
      intro h
      have hc := hcond.1.2
      rw [show connected.contains n.id = connected.elem n.id from rfl] at hc
      rw [Bool.eq_false_iff] at hc
      exact hc (List.elem_iff.mpr h)
    set nbrs := allBubbles.filter
      (fun b => b.active && !b.isFloating && !connected.contains b.id && isNeighbor curr b) with hnbrs
    have hsub : freshIds ((rest ++ nbrs) ++ allBubbles) (connected ++ nbrs.map Bubble.id) ⊆
        freshIds ((curr :: rest) ++ allBubbles) connected := by
      apply freshIds_subset
      · intro b hb
        simp only [List.mem_append, List.map_append, List.mem_map] at *
        rcases hb with (h | h) | h
        · exact Or.inl ⟨b, List.mem_cons_of_mem _ h, rfl⟩
        · exact Or.inr ⟨b, List.mem_of_mem_filter h, rfl⟩
        · exact Or.inr ⟨b, h, rfl⟩
      · exact fun x h => List.mem_append_left _ h
    have hwit_in : n.id ∈ freshIds ((curr :: rest) ++ allBubbles) connected := by
      simp only [freshIds, Finset.mem_sdiff, List.mem_toFinset, List.mem_map]
      exact ⟨⟨n, by simp [List.mem_append, hnmem], rfl⟩, hnid⟩
    have hwit_out :
        n.id ∉ freshIds ((rest ++ nbrs) ++ allBubbles) (connected ++ nbrs.map Bubble.id) := by
      simp only [freshIds, Finset.mem_sdiff, List.mem_toFinset, List.mem_map, List.mem_append]
      intro h
      exact h.2 (Or.inr ⟨n, hn, rfl⟩)
    have hcard := card_lt_of_witness hsub n.id hwit_in hwit_out
    have hlen : nbrs.length ≤ allBubbles.length := List.length_filter_le _ _
    have hm := Nat.mul_le_mul_left (allBubbles.length + 1) (Nat.succ_le_of_lt hcard)
    have hx := Nat.mul_succ (allBubbles.length + 1)
      (freshIds ((rest ++ nbrs) ++ allBubbles) (connected ++ nbrs.map Bubble.id)).card
    simp only [List.length_append, List.length_cons]
    omega

/-- `findFloatingBubbles` (lines 552-563): seed the BFS with every active,
non-floating ceiling-row (`row = 0`) bubble, run it to a fixpoint, and return
the active, non-floating bubbles whose id was never connected. -/
def findFloatingBubbles (allBubbles : List Bubble) : List Bubble :=
  let queue := allBubbles.filter (fun b => b.row == 0 && b.active && !b.isFloating)
  let connected := queue.map Bubble.id
  let final := bfsLoop allBubbles queue connected
  allBubbles.filter (fun b => b.active && !b.isFloating && !final.contains b.id)

/-- The DFS of `checkMatches` (lines 621-639).  The JS `toCheck` array is
popped from the back and pushed at the back; it is modelled head-first, so a
push of `pushed` becomes `pushed.reverse ++ stack`.  A popped, unvisited
bubble is marked visited; if its color matches it joins `matches` and its
unvisited active, non-floating neighbors (of any color) are pushed.  Returns
`(matches, visited)` (the source keeps `visited` local; it is returned here
so the fixpoint can be reasoned about). -/
def checkMatchesLoop (allBubbles : List Bubble) (startColor : BubbleColor) :
    List Bubble → List Nat → List Bubble → List Bubble × List Nat
  | [], visited, matched => (matched, visited)
  | current :: rest, visited, matched =>
    if current.id ∈ visited then
      checkMatchesLoop allBubbles startColor rest visited matched
    else
      let visited' := current.id :: visited
      if current.color = startColor then
        let pushed := allBubbles.filter
          (fun b => b.active && !b.isFloating && !visited'.contains b.id && isNeighbor current b)
        checkMatchesLoop allBubbles startColor (pushed.reverse ++ rest) visited'
          (matched ++ [current])
      else
        checkMatchesLoop allBubbles startColor rest visited' matched
termination_by stack visited _ =>
  (allBubbles.length + 1) * (freshIds (stack ++ allBubbles) visited).card + stack.length
decreasing_by
  · have hsub : freshIds (rest ++ allBubbles) visited ⊆
        freshIds ((current :: rest) ++ allBubbles) visited := by
      apply freshIds_subset
      · intro b hb
        simp only [List.map_append, List.mem_append, List.mem_map] at *
        rcases hb with h | h
        · exact Or.inl ⟨b, List.mem_cons_of_mem _ h, rfl⟩
        · exact Or.inr ⟨b, h, rfl⟩
      · exact fun x h => h
    have hm := Nat.mul_le_mul_left (allBubbles.length + 1) (Finset.card_le_card hsub)
    simp only [List.length_cons]
    omega
  · set nbrs := allBubbles.filter
      (fun b => b.active && !b.isFloating &&
        !(current.id :: visited).contains b.id && isNeighbor current b) with hnbrs
    have hsub : freshIds ((nbrs.reverse ++ rest) ++ allBubbles) (current.id :: visited) ⊆
        freshIds ((current :: rest) ++ allBubbles) visited := by
      apply freshIds_subset
      · intro b hb
        simp only [List.mem_append, List.map_append, List.mem_map, List.mem_reverse] at *
        rcases hb with (h | h) | h
        · exact Or.inr ⟨b, List.mem_of_mem_filter h, rfl⟩
        · exact Or.inl ⟨b, List.mem_cons_of_mem _ h, rfl⟩
        · exact Or.inr ⟨b, h, rfl⟩
      · exact fun x h => List.mem_cons_of_mem _ h
    have hwit_in : current.id ∈ freshIds ((current :: rest) ++ allBubbles) visited := by
      simp only [freshIds, Finset.mem_sdiff, List.mem_toFinset, List.mem_map]
      exact ⟨⟨current, by simp, rfl⟩, by assumption⟩
    have hwit_out :
        current.id ∉ freshIds ((nbrs.reverse ++ rest) ++ allBubbles) (current.id :: visited) := by
      simp only [freshIds, Finset.mem_sdiff, List.mem_toFinset]
      intro h
      exact h.2 (List.mem_cons_self _ _)
    have hcard := card_lt_of_witness hsub current.id hwit_in hwit_out
    have hlen : nbrs.length ≤ allBubbles.length := List.length_filter_le _ _
    have hm := Nat.mul_le_mul_left (allBubbles.length + 1) (Nat.succ_le_of_lt hcard)
    have hx := Nat.mul_succ (allBubbles.length + 1)
      (freshIds ((nbrs.reverse ++ rest) ++ allBubbles) (current.id :: visited)).card
    simp only [List.length_append, List.length_cons, List.length_reverse]
    omega
  · have hsub : freshIds (rest ++ allBubbles) (current.id :: visited) ⊆
        freshIds ((current :: rest) ++ allBubbles) visited := by
      apply freshIds_subset
      · intro b hb
        simp only [List.map_append, List.mem_append, List.mem_map] at *
        rcases hb with h | h
        · exact Or.inl ⟨b, List.mem_cons_of_mem _ h, rfl⟩
        · exact Or.inr ⟨b, h, rfl⟩
      · exact fun x h => List.mem_cons_of_mem _ h
    have hm := Nat.mul_le_mul_left (allBubbles.length + 1) (Finset.card_le_card hsub)
    simp only [List.length_cons]
    omega

/-- `checkMatches` (lines 621-639): flood-fill from `startBubble` and report
`(matches, fired)` where `fired` is the returned boolean — `true` exactly when
`matches.length >= 3`, in which case the source hands `matches` to
`triggerQuiz` as the pending match set. -/
def checkMatches (allBubbles : List Bubble) (startBubble : Bubble) : List Bubble × Bool :=
  let r := checkMatchesLoop allBubbles startBubble.color [startBubble] [] []
  (r.1, decide (r.1.length ≥ 3))

/-- Reachability from the ceiling row through active, non-floating spheres via
general (color-blind) adjacency: the specification's notion backing
`findOrphans` correctness (C4, C10). -/
inductive CeilReach (board : List Bubble) : Bubble → Prop where
  | seed {b : Bubble} : b ∈ board → b.row = 0 → b.active = true → b.isFloating = false →
      CeilReach board b
  | step {a b : Bubble} : CeilReach board a → b ∈ board → b.active = true →
      b.isFloating = false → isNeighbor a b = true → CeilReach board b

/-- Same-color connectivity to `start` through active, non-floating spheres of
`start`'s color: the specification's `connectedSameColor` cluster (C2, C3). -/
inductive MatchReach (board : List Bubble) (start : Bubble) : Bubble → Prop where
  | base : MatchReach board start start
  | step {a b : Bubble} : MatchReach board start a → b ∈ board → b.active = true →
      b.isFloating = false → b.color = start.color → isNeighbor a b = true →
      MatchReach board start b

/-- Bubbles are recovered from equal ids when the board's ids are distinct. -/
theorem id_inj_of_nodup {board : List Bubble} (hnd : (board.map Bubble.id).Nodup)
    {a b : Bubble} (ha : a ∈ board) (hb : b ∈ board) (hid : a.id = b.id) : a = b :=
  List.inj_on_of_nodup_map hnd ha hb hid

/-- Membership in the BFS push filter, unfolded. -/
theorem bfs_filter_iff (allBubbles : List Bubble) (connected : List Nat) (curr b : Bubble) :
    b ∈ allBubbles.filter
        (fun x => x.active && !x.isFloating && !connected.contains x.id && isNeighbor curr x) ↔
      b ∈ allBubbles ∧ b.active = true ∧ b.isFloating = false ∧ b.id ∉ connected ∧
        isNeighbor curr b = true := by
  rw [List.mem_filter]
  simp only [Bool.and_eq_true, Bool.not_eq_true', List.elem_eq_mem, decide_eq_false_iff_not,
    decide_eq_true_eq]
  tauto

theorem bfsLoop_nil (allBubbles : List Bubble) (connected : List Nat) :
    bfsLoop allBubbles [] connected = connected := by
  rw [bfsLoop.eq_def]

theorem bfsLoop_cons (allBubbles : List Bubble) (curr : Bubble) (rest : List Bubble)
    (connected : List Nat) :
    bfsLoop allBubbles (curr :: rest) connected =
      bfsLoop allBubbles
        (rest ++ allBubbles.filter
          (fun b => b.active && !b.isFloating && !connected.contains b.id && isNeighbor curr b))
        (connected ++ (allBubbles.filter
          (fun b => b.active && !b.isFloating && !connected.contains b.id &&
            isNeighbor curr b)).map Bubble.id) := by
  rw [bfsLoop.eq_def]

/-- The BFS only grows its connected set. -/
theorem bfsLoop_mono (allBubbles : List Bubble) :
    ∀ (queue : List Bubble) (connected : List Nat), ∀ i ∈ connected,
      i ∈ bfsLoop allBubbles queue connected := by
  intro queue connected
  induction queue, connected using bfsLoop.induct allBubbles with
  | case1 connected =>
    intro i hi
    rw [bfsLoop_nil]
    exact hi
  | case2 curr rest connected nbrs ih =>
    intro i hi
    rw [bfsLoop_cons]
    exact ih i (List.mem_append_left _ hi)

/-- BFS soundness: every id the BFS ever marks connected belongs to a bubble
reachable from the ceiling, provided the starting state is sound. -/
theorem bfsLoop_sound (allBubbles : List Bubble) :
    ∀ (queue : List Bubble) (connected : List Nat),
      (∀ q ∈ queue, CeilReach allBubbles q) →
      (∀ i ∈ connected, ∃ c, CeilReach allBubbles c ∧ c.id = i) →
      ∀ i ∈ bfsLoop allBubbles queue connected, ∃ c, CeilReach allBubbles c ∧ c.id = i := by
  intro queue connected
  induction queue, connected using bfsLoop.induct allBubbles with
  | case1 connected =>
    intro _ hconn
    rw [bfsLoop_nil]
    exact hconn
  | case2 curr rest connected nbrs ih =>
    intro hq hconn
    rw [bfsLoop_cons]
    apply ih
    · intro q hq'
      rcases List.mem_append.mp hq' with h | h
      · exact hq q (List.mem_cons_of_mem _ h)
      · obtain ⟨hm, ha, hf, _, hn⟩ := (bfs_filter_iff allBubbles connected curr q).mp h
        exact CeilReach.step (hq curr (List.mem_cons_self _ _)) hm ha hf hn
    · intro i hi
      rcases List.mem_append.mp hi with h | h
      · exact hconn i h
      · obtain ⟨b, hb, rfl⟩ := List.mem_map.mp h
        obtain ⟨hm, ha, hf, _, hn⟩ := (bfs_filter_iff allBubbles connected curr b).mp hb
        exact ⟨b, CeilReach.step (hq curr (List.mem_cons_self _ _)) hm ha hf hn, rfl⟩

/-- BFS closure: if every connected board bubble is either still queued or
already fully expanded, then at the fixpoint every connected board bubble's
active non-floating neighbors are connected as well. -/
theorem bfsLoop_closed (allBubbles : List Bubble)
    (hnd : (allBubbles.map Bubble.id).Nodup) :
    ∀ (queue : List Bubble) (connected : List Nat),
      (∀ a, a ∈ allBubbles → a.active = true → a.isFloating = false → a.id ∈ connected →
        a ∈ queue ∨ (∀ b, b ∈ allBubbles → b.active = true → b.isFloating = false →
          isNeighbor a b = true → b.id ∈ connected)) →
      ∀ a, a ∈ allBubbles → a.active = true → a.isFloating = false →
        a.id ∈ bfsLoop allBubbles queue connected →
        ∀ b, b ∈ allBubbles → b.active = true → b.isFloating = false →
          isNeighbor a b = true → b.id ∈ bfsLoop allBubbles queue connected := by
  intro queue connected
  induction queue, connected using bfsLoop.induct allBubbles with
  | case1 connected =>
    intro hinv a hamem haact hafl haid b hbmem hbact hbfl hnb
    rw [bfsLoop_nil] at haid ⊢
    rcases hinv a hamem haact hafl haid with h | h
    · exact absurd h (List.not_mem_nil a)
    · exact h b hbmem hbact hbfl hnb
  | case2 curr rest connected nbrs ih =>
    intro hinv
    rw [bfsLoop_cons]
    apply ih
    intro a hamem haact hafl haid
    rcases List.mem_append.mp haid with h | h
    · rcases hinv a hamem haact hafl h with hq | hexp
      · rcases List.mem_cons.mp hq with heq | hq'
        · subst heq
          right
          intro b hbmem hbact hbfl hnb
          by_cases hbc : b.id ∈ connected
          · exact List.mem_append_left _ hbc
          · refine List.mem_append_right _ ?_
            exact List.mem_map.mpr
              ⟨b, (bfs_filter_iff allBubbles connected a b).mpr ⟨hbmem, hbact, hbfl, hbc, hnb⟩,
                rfl⟩
        · exact Or.inl (List.mem_append_left _ hq')
      · right
        intro b hbmem hbact hbfl hnb
        exact List.mem_append_left _ (hexp b hbmem hbact hbfl hnb)
    · obtain ⟨n, hn, hid⟩ := List.mem_map.mp h
      obtain ⟨hnmem, _, _, _, _⟩ := (bfs_filter_iff allBubbles connected curr n).mp hn
      have heq : a = n := id_inj_of_nodup hnd hamem hnmem hid.symm
      subst heq
      exact Or.inl (List.mem_append_right _ hn)

/-! ### Difficulty, geometry and color policy -/

/-- The four difficulty tiers (`Difficulty` in `types.ts`). -/
inductive Difficulty where
  | Easy
  | Medium
  | Hard
  | Infinity
deriving DecidableEq, Repr

/-- One row of `DIFFICULTY_CONFIG` (label and display color omitted). -/
structure DifficultyConfig where
  dropInterval : ℚ
  initialRows : Nat
  density : ℚ
  winScore : Nat
deriving Repr

/-- `DIFFICULTY_CONFIG` (lines 34-39); `Number.MAX_SAFE_INTEGER` for the
Infinity tier's win score. -/
def DIFFICULTY_CONFIG : Difficulty → DifficultyConfig
  | .Easy => ⟨60000, 6, 85 / 100, 3000⟩
  | .Medium => ⟨40000, 8, 9 / 10, 8000⟩
  | .Hard => ⟨20000, 10, 95 / 100, 15000⟩
  | .Infinity => ⟨30000, 9, 9 / 10, 9007199254740991⟩

def BUBBLE_RADIUS : ℚ := 20
def MAX_GRID_COLS : Nat := 16
def GRID_ROWS : Nat := 10
def SLINGSHOT_BOTTOM_OFFSET : ℚ := 220

/-- `getBubblePos` (lines 363-370).  `cols` is the current `gridColsRef`
value; `rh` stands for the irrational `ROW_HEIGHT = BUBBLE_RADIUS * sqrt 3`,
kept as a parameter of the embedding. -/
def getBubblePos (cols : Nat) (rh : ℚ) (row col : Int) (width : ℚ) : ℚ × ℚ :=
  let xOffset := (width - (cols * (BUBBLE_RADIUS * 2))) / 2 + BUBBLE_RADIUS
  let isOdd := row % 2 != 0
  let x := xOffset + col * (BUBBLE_RADIUS * 2) + (if isOdd then BUBBLE_RADIUS else 0)
  let y := BUBBLE_RADIUS + row * rh
  (x, y)

/-- The responsive column count from `initGrid` (lines 398-399):
`min(MAX_GRID_COLS, max(5, floor((width - 40) / (BUBBLE_RADIUS * 2.1))))`. -/
def computeGridCols (width : ℚ) : Nat :=
  min MAX_GRID_COLS (max 5 (Int.toNat ((width - 40) / (BUBBLE_RADIUS * (21 / 10))).floor))

/-- `Array.from(new Set(l))`: deduplication keeping first occurrences; `seen`
accumulates the values already emitted. -/
def jsDedupAux (seen : List BubbleColor) : List BubbleColor → List BubbleColor
  | [] => []
  | c :: rest =>
    if seen.contains c then jsDedupAux seen rest else c :: jsDedupAux (seen ++ [c]) rest

/-- `Array.from(new Set(l))`: deduplication keeping first occurrences. -/
def jsDedup (l : List BubbleColor) : List BubbleColor := jsDedupAux [] l

/-- The random draws consumed by one `getNextBubbleColor` call.  An index draw
`Math.floor(Math.random() * xs.length)` becomes `k % xs.length`; the
comparison `Math.random() < introduceNewColorChance` becomes the Bool
`introduceNew` (the chance is strictly between 0 and 1 for every difficulty,
so both outcomes are realizable). -/
structure ColorRand where
  kEmptyBoard : Nat
  kNoCandidates : Nat
  introduceNew : Bool
  kIntroduce : Nat
  kFinal : Nat
deriving Repr

/-- `xs[k % xs.length]`; the default is never reached on paths where the
source indexes a nonempty list. -/
def pickColor (xs : List BubbleColor) (k : Nat) : BubbleColor :=
  xs.getD (k % xs.length) .red

/-- `getNextBubbleColor` (lines 372-393). -/
def getNextBubbleColor (currentBubbles : List Bubble) (forbiddenColors : List BubbleColor)
    (difficulty : Difficulty) (r : ColorRand) : BubbleColor :=
  let activeColors := jsDedup ((currentBubbles.filter (fun b => b.active)).map Bubble.color)
  if activeColors.length = 0 then pickColor COLOR_KEYS r.kEmptyBoard
  else
    let candidates0 := activeColors.filter (fun c => !forbiddenColors.contains c)
    let candidates :=
      if candidates0.length = 0 then COLOR_KEYS.filter (fun c => !forbiddenColors.contains c)
      else candidates0
    if candidates.length = 0 then pickColor COLOR_KEYS r.kNoCandidates
    else if r.introduceNew then
      let allValid := COLOR_KEYS.filter (fun c => !forbiddenColors.contains c)
      if allValid.length > 0 then pickColor allValid r.kIntroduce
      else pickColor candidates r.kFinal
    else pickColor candidates r.kFinal

/-! ### Match confirmation -/

/-- The in-place mutation `b.active = false; b.popTime = now` applied to the
members of the pending set, keyed by id as the source's object references
are. -/
def deactivate (pending : List Bubble) (now : ℚ) (b : Bubble) : Bubble :=
  if pending.any (fun p => p.id == b.id) then { b with active := false, popTime := some now }
  else b

/-- The in-place mutation `b.isFloating = true` applied to the orphan set (the
randomized animation velocities are rendering-only and omitted). -/
def markFloating (floating : List Bubble) (b : Bubble) : Bubble :=
  if floating.any (fun p => p.id == b.id) then { b with isFloating := true } else b

structure CompleteMatchResult where
  board : List Bubble
  score : Nat
  reseeded : Bool
deriving Repr

/-- `completeMatch` (lines 565-617), as a pure function of the board and
score.  When `awarded`: every pending sphere is deactivated (each adding the
per-color base points), then the orphans of the now-reduced board are marked
floating and add `count * base * 2`, then a flat `500` is added.  Afterwards
(in either branch) the board reseeds via `initGrid` when no active
non-floating bubble remains; the reseeded board is passed in as the oracle
`reseed`.  Sounds, particles, floating text and the win-flag UI state are
rendering-only and omitted. -/
def completeMatch (awarded : Bool) (pending : List Bubble) (board : List Bubble)
    (score : Nat) (now : ℚ) (reseed : List Bubble) : CompleteMatchResult :=
  let afterAward :=
    if awarded then
      let basePoints := points ((pending.head?.map Bubble.color).getD .red)
      let board1 := board.map (deactivate pending now)
      let pts1 := pending.length * basePoints
      let floating := findFloatingBubbles board1
      let board2 := if floating.length > 0 then board1.map (markFloating floating) else board1
      let bonus := if floating.length > 0 then floating.length * basePoints * 2 else 0
      (board2, score + (pts1 + bonus) + 500)
    else (board, score)
  let activeCount := (afterAward.1.filter (fun b => b.active && !b.isFloating)).length
  if activeCount = 0 then { board := reseed, score := afterAward.2, reseeded := true }
  else { board := afterAward.1, score := afterAward.2, reseeded := false }

/-! ### Row spawning, initial grid and snap insertion -/

/-- The random draws and fresh ids consumed by one `addNewRow` call: `fill c`
is the per-column outcome of `Math.random() < density`, `colorRand c` the
draws of that column's `getNextBubbleColor` call, `newId c` the fresh id
(source: a `Date.now()`-based string). -/
structure RowOracle where
  fill : Nat → Bool
  colorRand : Nat → ColorRand
  newId : Nat → Nat

/-- One new-row bubble of `addNewRow` (lines 473-485): a row-0 cell at column
`c`, its color drawn by `getNextBubbleColor` over the (already shifted)
board, with the previous cell's color forbidden when the two previous new
cells agree on it. -/
def rowCell (cols : Nat) (rh : ℚ) (canvasWidth : ℚ) (difficulty : Difficulty)
    (o : RowOracle) (board : List Bubble) (acc : List Bubble) (c : Nat) : Bubble :=
  let pos := getBubblePos cols rh 0 c canvasWidth
  let forbidden : List BubbleColor :=
    match acc.reverse with
    | p1 :: p2 :: _ => if p1.color = p2.color then [p1.color] else []
    | _ => []
  { id := o.newId c, row := 0, col := (c : Int), x := pos.1, y := pos.2,
    color := getNextBubbleColor board forbidden difficulty (o.colorRand c),
    active := true }

/-- The new top row built by `addNewRow` (lines 466-487): left-to-right
Bernoulli-filled cells at row 0. -/
def buildNewRow (cols : Nat) (rh : ℚ) (canvasWidth : ℚ) (difficulty : Difficulty)
    (o : RowOracle) (board : List Bubble) : List Bubble :=
  (List.range cols).foldl
    (fun acc c =>
      if o.fill c then acc ++ [rowCell cols rh canvasWidth difficulty o board acc c] else acc)
    []

/-- `addNewRow` (lines 457-490): shift every bubble down one row (recomputing
its pixel position), end the round (returning `true`, no new row) if the
lowest active bubble's `y` passes the loss line, otherwise append the new top
row.  `Math.max` over an empty array is `-Infinity`, modelled by
`List.maximum`'s `⊥`. -/
def addNewRow (cols : Nat) (rh : ℚ) (canvasWidth canvasHeight : ℚ)
    (difficulty : Difficulty) (o : RowOracle) (board : List Bubble) :
    List Bubble × Bool :=
  let shifted := board.map (fun b =>
    let pos := getBubblePos cols rh (b.row + 1) b.col canvasWidth
    { b with row := b.row + 1, x := pos.1, y := pos.2 })
  let lowestY := ((shifted.filter (fun b => b.active)).map Bubble.y).maximum
  if ((canvasHeight - SLINGSHOT_BOTTOM_OFFSET - 80 : ℚ) : WithBot ℚ) < lowestY then
    (shifted, true)
  else
    (shifted ++ buildNewRow cols rh canvasWidth difficulty o shifted, false)

/-- The random draws and fresh ids consumed by one `initGrid` call:
`palette` is the outcome of the `COLOR_KEYS` shuffle, `fill r c` the per-cell
density draw, `colorPick r c` the index draw into that cell's candidate
list, `newId r c` the fresh id. -/
structure InitOracle where
  palette : List BubbleColor
  fill : Nat → Nat → Bool
  colorPick : Nat → Nat → Nat
  newId : Nat → Nat → Nat

/-- The `(r, c)` cell indices enumerated by `initGrid`'s nested loops: odd
rows hold one cell fewer. -/
def gridCells (rows cols : Nat) : List (Nat × Nat) :=
  (List.range rows).flatMap (fun r =>
    (List.range (if r % 2 ≠ 0 then cols - 1 else cols)).map (fun c => (r, c)))

/-- The per-difficulty palette size of `initGrid` (lines 404-409). -/
def numColorsFor : Difficulty → Nat
  | .Easy => 4
  | .Medium => 5
  | .Hard => 6
  | .Infinity => 6

/-- One initial-grid bubble of `initGrid` (lines 417-441): the cell `rc`,
colored from the level palette, forbidding the previous bubble's color when
it sits in the same row and agrees with the one before it. -/
def initCell (width rh : ℚ) (cols : Nat) (levelPalette : List BubbleColor) (o : InitOracle)
    (acc : List Bubble) (rc : Nat × Nat) : Bubble :=
  let pos := getBubblePos cols rh rc.1 rc.2 width
  let forbidden : List BubbleColor :=
    match acc.reverse with
    | p1 :: p2 :: _ =>
      if p1.row = (rc.1 : Int) ∧ p1.color = p2.color then [p1.color] else []
    | _ => []
  let candidates0 := levelPalette.filter (fun c => !forbidden.contains c)
  let candidates := if candidates0.length = 0 then levelPalette else candidates0
  { id := o.newId rc.1 rc.2, row := (rc.1 : Int), col := (rc.2 : Int),
    x := pos.1, y := pos.2,
    color := pickColor candidates (o.colorPick rc.1 rc.2), active := true }

/-- `initGrid` (lines 395-455), the board part: a fresh grid of
`initialRows` rows, each cell Bernoulli-populated, colored from the
difficulty-sliced shuffled palette. -/
def initGrid (width : ℚ) (rh : ℚ) (difficulty : Difficulty) (o : InitOracle) : List Bubble :=
  let cols := computeGridCols width
  let config := DIFFICULTY_CONFIG difficulty
  let levelPalette := o.palette.take (numColorsFor difficulty)
  (gridCells config.initialRows cols).foldl
    (fun acc rc =>
      if o.fill rc.1 rc.2 then
        acc ++ [initCell width rh cols levelPalette o acc rc]
      else acc)
    []

/-- Occupancy test of the snap scan (line 910): an active, non-floating
bubble sits at `(r, c)`. -/
def cellOccupied (board : List Bubble) (r c : Nat) : Bool :=
  board.any (fun b => b.active && !b.isFloating && b.row == (r : Int) && b.col == (c : Int))

/-- The cells scanned by the snap search (lines 906-908): rows
`0 ≤ r < GRID_ROWS + 10`, with one column fewer on odd rows — the same
row/column enumeration as the grid loops. -/
def windowCells (cols : Nat) : List (Nat × Nat) :=
  gridCells (GRID_ROWS + 10) cols

/-- Whether the snap scan window holds at least one unoccupied cell. -/
def windowHasFree (board : List Bubble) (cols : Nat) : Bool :=
  (windowCells cols).any (fun rc => !cellOccupied board rc.1 rc.2)

/-- The best-cell scan of the snap logic (lines 905-914): first unoccupied
cell at minimum Euclidean distance from the resting projectile position,
`Infinity` modelled by `none`; squared distances replace `Math.sqrt`
(strictly monotone, so the same cell is selected).  When every window cell is
occupied the 0-initialized `(bestRow, bestCol, bestX, bestY)` survive. -/
def snapBest (board : List Bubble) (cols : Nat) (rh width ballX ballY : ℚ) :
    Option ℚ × (Nat × Nat) × (ℚ × ℚ) :=
  (windowCells cols).foldl
    (fun acc rc =>
      if cellOccupied board rc.1 rc.2 then acc
      else
        let pos := getBubblePos cols rh rc.1 rc.2 width
        let d := (ballX - pos.1) ^ 2 + (ballY - pos.2) ^ 2
        match acc.1 with
        | none => (some d, rc, pos)
        | some bd => if d < bd then (some d, rc, pos) else acc)
    (none, (0, 0), (0, 0))

/-- Lines 915-916: the settled projectile is pushed onto the board at the
scanned best cell. -/
def snapInsert (board : List Bubble) (cols : Nat) (rh width ballX ballY : ℚ)
    (newIdv : Nat) (color : BubbleColor) : List Bubble :=
  let best := snapBest board cols rh width ballX ballY
  board ++ [{ id := newIdv, row := (best.2.1.1 : Int), col := (best.2.1.2 : Int),
              x := best.2.2.1, y := best.2.2.2, color := color, active := true }]

/-! ### Engine-level state: spawn timer and quiz gating -/

structure EngineState where
  board : List Bubble
  score : Nat
  lastDropTime : ℚ
  isQuizActive : Bool

/-- The auto-drop gate of `onResults` (lines 772-775): a row spawns on a frame
at `now` only when no quiz is active, the player is not pinching, no
projectile is in flight, the round is not won, and the spawn interval has
elapsed since `lastDropTime`. -/
def autoDropFires (s : EngineState) (now : ℚ) (difficulty : Difficulty)
    (isPinching isFlying gameWon : Bool) : Bool :=
  !s.isQuizActive && !isPinching && !isFlying && !gameWon &&
    decide ((DIFFICULTY_CONFIG difficulty).dropInterval < now - s.lastDropTime)

/-- `completeMatch`'s effect on the engine-level state: the quiz flag is
cleared and board/score updated; `lastDropTimeRef` is written only by
`initGrid` (line 445, run again here exactly on a board-clearing reseed) and
by `addNewRow` (line 489) — `completeMatch` itself never resets it. -/
def completeMatchE (awarded : Bool) (pending : List Bubble) (now : ℚ)
    (reseed : List Bubble) (s : EngineState) : EngineState :=
  let r := completeMatch awarded pending s.board s.score now reseed
  { board := r.board, score := r.score,
    lastDropTime := if r.reseeded then now else s.lastDropTime,
    isQuizActive := false }

/-! ### The board-cell uniqueness invariant and reachable boards -/

/-- No two active, non-floating spheres share a `(row, col)` cell. -/
def UniqueCells (l : List Bubble) : Prop :=
  l.Pairwise (fun a b => a.active = true → a.isFloating = false →
    b.active = true → b.isFloating = false → ¬(a.row = b.row ∧ a.col = b.col))

instance instUniqueCellsDec (l : List Bubble) : Decidable (UniqueCells l) := by
  unfold UniqueCells
  infer_instance

/-- Board states reachable from an initial grid by the three board-mutating
operations of claim C6 — row spawns, snap insertions and match
confirmations — each with its randomness supplied by an oracle. -/
inductive ReachableBoard (rh width height : ℚ) (difficulty : Difficulty) :
    List Bubble → Prop where
  | init (o : InitOracle) :
      ReachableBoard rh width height difficulty (initGrid width rh difficulty o)
  | spawn {board : List Bubble} (o : RowOracle) :
      ReachableBoard rh width height difficulty board →
      ReachableBoard rh width height difficulty
        (addNewRow (computeGridCols width) rh width height difficulty o board).1
  | snap {board : List Bubble} (ballX ballY : ℚ) (newIdv : Nat) (color : BubbleColor) :
      ReachableBoard rh width height difficulty board →
      ReachableBoard rh width height difficulty
        (snapInsert board (computeGridCols width) rh width ballX ballY newIdv color)
  | confirm {board : List Bubble} (awarded : Bool) (pending : List Bubble) (score : Nat)
      (now : ℚ) (oReseed : InitOracle) :
      ReachableBoard rh width height difficulty board →
      ReachableBoard rh width height difficulty
        (completeMatch awarded pending board score now
          (initGrid width rh difficulty oReseed)).board

/-- As `ReachableBoard`, but each snap insertion carries the amending
hypothesis that its scan window still holds an unoccupied cell. -/
inductive ReachableBoardG (rh width height : ℚ) (difficulty : Difficulty) :
    List Bubble → Prop where
  | init (o : InitOracle) :
      ReachableBoardG rh width height difficulty (initGrid width rh difficulty o)
  | spawn {board : List Bubble} (o : RowOracle) :
      ReachableBoardG rh width height difficulty board →
      ReachableBoardG rh width height difficulty
        (addNewRow (computeGridCols width) rh width height difficulty o board).1
  | snap {board : List Bubble} (ballX ballY : ℚ) (newIdv : Nat) (color : BubbleColor) :
      windowHasFree board (computeGridCols width) = true →
      ReachableBoardG rh width height difficulty board →
      ReachableBoardG rh width height difficulty
        (snapInsert board (computeGridCols width) rh width ballX ballY newIdv color)
  | confirm {board : List Bubble} (awarded : Bool) (pending : List Bubble) (score : Nat)
      (now : ℚ) (oReseed : InitOracle) :
      ReachableBoardG rh width height difficulty board →
      ReachableBoardG rh width height difficulty
        (completeMatch awarded pending board score now
          (initGrid width rh difficulty oReseed)).board

/-- C1, counterexample: for `a = (row 1, col 0)`, `b = (row 0, col 1)` the code
declares the cells neighbors (geometrically correct: odd rows are shifted
right), while the spec's rule as the claim fixes it — parity of the lower-row
cell, here row `0`, even, demanding `dc ∈ {-1,0}` against `dc = 1` — declares
them non-neighbors. -/
theorem c1_spec_rule_counterexample :
    isNeighbor (mkCell 0 1 0) (mkCell 1 0 1) = true ∧
      specNeighborRule (mkCell 0 1 0) (mkCell 1 0 1) = false := by
  constructor <;> rfl

/-- C1 (amended): `isNeighbor` agrees everywhere with the spec's parity rule
once the `dc` sets are read off the odd-row cell: for `|dr| = 1` the cells are
neighbors iff `evenRowCell.col - oddRowCell.col ∈ {0, 1}`.  When `dr = +1`
(`a` is the lower-row cell) this coincides with the claim's reading; when
`dr = -1` the claimed `dc` sets for the two parities must be swapped. -/
theorem c1_isNeighbor_parity_rule (a b : Bubble) :
    isNeighbor a b = specNeighborRuleAmended a b := by
  rw [Bool.eq_iff_iff, isNeighbor_iff, specNeighborRuleAmended_iff]
  omega

/-- C7: the adjacency predicate is symmetric in its two arguments, for every
pair of `(row, col)` coordinates. -/
theorem c7_isNeighbor_symm (a b : Bubble) : isNeighbor a b = isNeighbor b a := by
  rw [Bool.eq_iff_iff, isNeighbor_iff, isNeighbor_iff]
  omega

/-! ### Orphan detector: `findFloatingBubbles` computes ceiling reachability -/

/-- Members of a `CeilReach` derivation are active, non-floating board members. -/
theorem CeilReach.props {board : List Bubble} {b : Bubble} (h : CeilReach board b) :
    b ∈ board ∧ b.active = true ∧ b.isFloating = false := by
  cases h with
  | seed hb _ ha hf => exact ⟨hb, ha, hf⟩
  | step _ hb ha hf _ => exact ⟨hb, ha, hf⟩

/-- Membership in the ceiling-seed filter. -/
theorem seed_filter_iff (board : List Bubble) (b : Bubble) :
    b ∈ board.filter (fun x => x.row == 0 && x.active && !x.isFloating) ↔
      b ∈ board ∧ b.row = 0 ∧ b.active = true ∧ b.isFloating = false := by
  rw [List.mem_filter]
  simp only [Bool.and_eq_true, Bool.not_eq_true', beq_iff_eq]
  tauto

/-- Raw membership in `findFloatingBubbles`. -/
theorem findFloating_mem_raw (board : List Bubble) (b : Bubble) :
    b ∈ findFloatingBubbles board ↔
      b ∈ board ∧ b.active = true ∧ b.isFloating = false ∧
        b.id ∉ bfsLoop board (board.filter (fun x => x.row == 0 && x.active && !x.isFloating))
          ((board.filter (fun x => x.row == 0 && x.active && !x.isFloating)).map Bubble.id) := by
  unfold findFloatingBubbles
  rw [List.mem_filter]
  simp only [Bool.and_eq_true, Bool.not_eq_true', List.elem_eq_mem, decide_eq_false_iff_not]
  tauto

/-- The initial BFS state satisfies the closure invariant. -/
theorem bfs_initial_inv (board : List Bubble) (hnd : (board.map Bubble.id).Nodup) :
    ∀ a, a ∈ board → a.active = true → a.isFloating = false →
      a.id ∈ (board.filter (fun x => x.row == 0 && x.active && !x.isFloating)).map Bubble.id →
      a ∈ board.filter (fun x => x.row == 0 && x.active && !x.isFloating) ∨
        (∀ b, b ∈ board → b.active = true → b.isFloating = false → isNeighbor a b = true →
          b.id ∈ (board.filter (fun x => x.row == 0 && x.active && !x.isFloating)).map
            Bubble.id) := by
  intro a hamem _ _ haid
  left
  obtain ⟨q, hq, hqid⟩ := List.mem_map.mp haid
  have hqmem : q ∈ board := ((seed_filter_iff board q).mp hq).1
  have : a = q := id_inj_of_nodup hnd hamem hqmem hqid.symm
  exact this ▸ hq

/-- Every ceiling-reachable bubble's id is connected at the BFS fixpoint. -/
theorem ceilReach_id_mem (board : List Bubble) (hnd : (board.map Bubble.id).Nodup)
    {c : Bubble} (h : CeilReach board c) :
    c.id ∈ bfsLoop board (board.filter (fun x => x.row == 0 && x.active && !x.isFloating))
      ((board.filter (fun x => x.row == 0 && x.active && !x.isFloating)).map Bubble.id) := by
  induction h with
  | seed hb hr ha hf =>
    apply bfsLoop_mono
    exact List.mem_map.mpr ⟨_, (seed_filter_iff board _).mpr ⟨hb, hr, ha, hf⟩, rfl⟩
  | step ha hbmem hbact hbfl hnb ih =>
    rename_i a b
    exact bfsLoop_closed board hnd _ _ (bfs_initial_inv board hnd) a ha.props.1
      ha.props.2.1 ha.props.2.2 ih b hbmem hbact hbfl hnb

/-- `findFloatingBubbles` returns exactly the active, non-floating spheres
with no adjacency path to the ceiling row. -/
theorem findFloating_spec (board : List Bubble) (hnd : (board.map Bubble.id).Nodup)
    (b : Bubble) :
    b ∈ findFloatingBubbles board ↔
      b ∈ board ∧ b.active = true ∧ b.isFloating = false ∧ ¬CeilReach board b := by
  rw [findFloating_mem_raw]
  constructor
  · rintro ⟨hm, ha, hf, hid⟩
    exact ⟨hm, ha, hf, fun hr => hid (ceilReach_id_mem board hnd hr)⟩
  · rintro ⟨hm, ha, hf, hnr⟩
    refine ⟨hm, ha, hf, fun hid => ?_⟩
    obtain ⟨c, hc, hcid⟩ := bfsLoop_sound board _ _
      (fun q hq => by
        obtain ⟨hqm, hqr, hqa, hqf⟩ := (seed_filter_iff board q).mp hq
        exact CeilReach.seed hqm hqr hqa hqf)
      (fun i hi => by
        obtain ⟨q, hq, rfl⟩ := List.mem_map.mp hi
        obtain ⟨hqm, hqr, hqa, hqf⟩ := (seed_filter_iff board q).mp hq
        exact ⟨q, CeilReach.seed hqm hqr hqa hqf, rfl⟩)
      b.id hid
    have : c = b := id_inj_of_nodup hnd hc.props.1 hm hcid
    exact hnr (this ▸ hc)

/-- `deactivate` and `markFloating` never change a bubble's id. -/
theorem statusMap_id (pending floating : List Bubble) (now : ℚ) (b : Bubble) :
    (deactivate pending now b).id = b.id ∧ (markFloating floating b).id = b.id := by
  unfold deactivate markFloating
  constructor <;> split <;> rfl

/-- Mapping `deactivate` or `markFloating` over a board keeps the id list. -/
theorem statusMap_ids (pending floating : List Bubble) (now : ℚ) (board : List Bubble) :
    (board.map (deactivate pending now)).map Bubble.id = board.map Bubble.id ∧
      (board.map (markFloating floating)).map Bubble.id = board.map Bubble.id := by
  constructor <;>
  · rw [List.map_map]
    apply List.map_congr_left
    intro b _
    simp only [Function.comp_apply, (statusMap_id pending floating now b).1,
      (statusMap_id pending floating now b).2]


/-- `completeMatch true` unfolded to its components. -/
theorem completeMatch_true_eq (pending board : List Bubble) (score : Nat) (now : ℚ)
    (reseed : List Bubble) :
    completeMatch true pending board score now reseed =
      (let basePoints := points ((pending.head?.map Bubble.color).getD .red)
       let board1 := board.map (deactivate pending now)
       let fl := findFloatingBubbles board1
       let board2 := if fl.length > 0 then board1.map (markFloating fl) else board1
       let bonus := if fl.length > 0 then fl.length * basePoints * 2 else 0
       let score2 := score + (pending.length * basePoints + bonus) + 500
       if (board2.filter (fun b => b.active && !b.isFloating)).length = 0 then
         { board := reseed, score := score2, reseeded := true }
       else { board := board2, score := score2, reseeded := false }) := rfl

/-- C10: `findFloatingBubbles` never returns a ceiling-row sphere — every
active, non-floating row-0 sphere is seeded into the connected set — and
consequently `completeMatch` never newly marks a row-0 sphere floating: a
floating row-0 sphere of the post-confirmation board (reseed aside) was
already floating beforehand. -/
theorem c10_ceiling_never_orphaned :
    (∀ (board : List Bubble) (b : Bubble), b ∈ findFloatingBubbles board → b.row ≠ 0) ∧
    (∀ (pending board : List Bubble) (score : Nat) (now : ℚ) (reseed : List Bubble)
      (b : Bubble), (board.map Bubble.id).Nodup →
      (completeMatch true pending board score now reseed).reseeded = false →
      b ∈ (completeMatch true pending board score now reseed).board →
      b.row = 0 → b.isFloating = true →
      ∃ b₀, b₀ ∈ board ∧ b₀.id = b.id ∧ b₀.isFloating = true) := by
  have part1 : ∀ (board : List Bubble) (b : Bubble), b ∈ findFloatingBubbles board →
      b.row ≠ 0 := by
    intro board b hb hrow
    obtain ⟨hm, ha, hf, hid⟩ := (findFloating_mem_raw board b).mp hb
    exact hid (bfsLoop_mono _ _ _ _
      (List.mem_map.mpr ⟨b, (seed_filter_iff board b).mpr ⟨hm, hrow, ha, hf⟩, rfl⟩))
  refine ⟨part1, ?_⟩
  intro pending board score now reseed b hnd hres hb hrow hfl
  rw [completeMatch_true_eq] at hres hb
  simp only at hres hb
  by_cases hc : (((if (findFloatingBubbles (board.map (deactivate pending now))).length > 0 then
      (board.map (deactivate pending now)).map
        (markFloating (findFloatingBubbles (board.map (deactivate pending now))))
      else board.map (deactivate pending now))).filter
        (fun x => x.active && !x.isFloating)).length = 0
  · rw [if_pos hc] at hres
    exact absurd hres (by simp)
  · rw [if_neg hc] at hb
    simp only at hb
    set board1 := board.map (deactivate pending now) with hboard1
    set fl := findFloatingBubbles board1 with hfldef
    have hnd1 : (board1.map Bubble.id).Nodup := by
      rw [hboard1, (statusMap_ids pending fl now board).1]
      exact hnd
    have hfrom_board1 : ∀ b₁, b₁ ∈ board1 → b₁.id = b.id → b₁.isFloating = b.isFloating →
        ∃ b₀, b₀ ∈ board ∧ b₀.id = b.id ∧ b₀.isFloating = true := by
      intro b₁ hb₁ hid hflo
      obtain ⟨b₀, hb₀, hb₀eq⟩ := List.mem_map.mp hb₁
      refine ⟨b₀, hb₀, ?_, ?_⟩
      · rw [← hid, ← hb₀eq, (statusMap_id pending fl now b₀).1]
      · have : b₁.isFloating = b₀.isFloating := by
          rw [← hb₀eq]
          unfold deactivate
          split <;> rfl
        rw [← this, hflo]
        exact hfl
    by_cases hlen : fl.length > 0
    · rw [if_pos hlen] at hb
      obtain ⟨b₁, hb₁, hbeq⟩ := List.mem_map.mp hb
      by_cases hmk : fl.any (fun p => p.id == b₁.id)
      · exfalso
        obtain ⟨f, hf, hfid⟩ := List.any_eq_true.mp hmk
        have hfmem : f ∈ board1 := ((findFloating_mem_raw board1 f).mp hf).1
        have hfb : f = b₁ := id_inj_of_nodup hnd1 hfmem hb₁ (by simpa using hfid)
        have hbrow : b.row = b₁.row := by
          rw [← hbeq]
          unfold markFloating
          rw [if_pos hmk]
        exact part1 board1 f hf (by rw [hfb, ← hbrow, hrow])
      · have hbb : b₁ = b := by
          rw [← hbeq]
          unfold markFloating
          rw [if_neg (by simpa using hmk)]
        exact hfrom_board1 b₁ hb₁ (by rw [hbb]) (by rw [hbb])
    · rw [if_neg hlen] at hb
      exact hfrom_board1 b hb rfl rfl

/-- C10 witness: on the one-sphere board at row 1 the orphan detector returns
that sphere, whose row is nonzero. -/
theorem c10_witness :
    mkCell 5 1 0 ∈ findFloatingBubbles [mkCell 5 1 0] ∧ (mkCell 5 1 0).row ≠ 0 := by
  have hmem : mkCell 5 1 0 ∈ findFloatingBubbles [mkCell 5 1 0] := by
    rw [findFloating_mem_raw]
    refine ⟨List.mem_singleton.mpr rfl, rfl, rfl, ?_⟩
    have hseed : ([mkCell 5 1 0].filter
        (fun x => x.row == 0 && x.active && !x.isFloating)) = [] := rfl
    rw [hseed]
    rw [show ([] : List Bubble).map Bubble.id = [] from rfl, bfsLoop_nil]
    exact List.not_mem_nil _
  exact ⟨hmem, c10_ceiling_never_orphaned.1 [mkCell 5 1 0] (mkCell 5 1 0) hmem⟩

/-! ### Flood-fill matcher: `checkMatches` computes the same-color cluster -/

/-- Every cluster member has the start sphere's color. -/
theorem MatchReach.color_eq {board : List Bubble} {start b : Bubble}
    (h : MatchReach board start b) : b.color = start.color := by
  cases h with
  | base => rfl
  | step _ _ _ _ hc _ => exact hc

/-- Every cluster member is the start sphere or an active, non-floating board
member. -/
theorem MatchReach.mem_or {board : List Bubble} {start b : Bubble}
    (h : MatchReach board start b) :
    b = start ∨ (b ∈ board ∧ b.active = true ∧ b.isFloating = false) := by
  cases h with
  | base => exact Or.inl rfl
  | step _ hb ha hf _ _ => exact Or.inr ⟨hb, ha, hf⟩

/-- A worklist entry of `checkMatchesLoop`: the start sphere, or an active,
non-floating board neighbor of some cluster member. -/
def PreReach (board : List Bubble) (start t : Bubble) : Prop :=
  t = start ∨ ∃ a, MatchReach board start a ∧ t ∈ board ∧ t.active = true ∧
    t.isFloating = false ∧ isNeighbor a t = true

theorem cmLoop_nil (board : List Bubble) (sc : BubbleColor) (visited : List Nat)
    (matched : List Bubble) :
    checkMatchesLoop board sc [] visited matched = (matched, visited) := by
  rw [checkMatchesLoop.eq_def]

theorem cmLoop_visited (board : List Bubble) (sc : BubbleColor) (current : Bubble)
    (rest : List Bubble) (visited : List Nat) (matched : List Bubble)
    (h : current.id ∈ visited) :
    checkMatchesLoop board sc (current :: rest) visited matched =
      checkMatchesLoop board sc rest visited matched := by
  rw [checkMatchesLoop.eq_def]
  simp only [if_pos h]

theorem cmLoop_match (board : List Bubble) (sc : BubbleColor) (current : Bubble)
    (rest : List Bubble) (visited : List Nat) (matched : List Bubble)
    (h : current.id ∉ visited) (hc : current.color = sc) :
    checkMatchesLoop board sc (current :: rest) visited matched =
      checkMatchesLoop board sc
        ((board.filter (fun b => b.active && !b.isFloating &&
          !(current.id :: visited).contains b.id && isNeighbor current b)).reverse ++ rest)
        (current.id :: visited) (matched ++ [current]) := by
  rw [checkMatchesLoop.eq_def]
  simp only [if_neg h, if_pos hc]

theorem cmLoop_nomatch (board : List Bubble) (sc : BubbleColor) (current : Bubble)
    (rest : List Bubble) (visited : List Nat) (matched : List Bubble)
    (h : current.id ∉ visited) (hc : ¬current.color = sc) :
    checkMatchesLoop board sc (current :: rest) visited matched =
      checkMatchesLoop board sc rest (current.id :: visited) matched := by
  rw [checkMatchesLoop.eq_def]
  simp only [if_neg h, if_neg hc]

/-- Soundness: everything the loop collects is in the cluster. -/
theorem cmLoop_sound (board : List Bubble) (start : Bubble) :
    ∀ (stack : List Bubble) (visited : List Nat) (matched : List Bubble),
      (∀ t ∈ stack, PreReach board start t) →
      (∀ m ∈ matched, MatchReach board start m) →
      ∀ m ∈ (checkMatchesLoop board start.color stack visited matched).1,
        MatchReach board start m := by
  intro stack visited matched
  induction stack, visited, matched using checkMatchesLoop.induct board start.color with
  | case1 visited matched =>
    intro _ hm
    rw [cmLoop_nil]
    exact hm
  | case2 current rest visited matched hvis ih =>
    intro hs hm
    rw [cmLoop_visited board start.color current rest visited matched hvis]
    exact ih (fun t ht => hs t (List.mem_cons_of_mem _ ht)) hm
  | case3 current rest visited matched hvis visited' hcol pushed ih =>
    intro hs hm
    rw [cmLoop_match board start.color current rest visited matched hvis hcol]
    have hcur : MatchReach board start current := by
      rcases hs current (List.mem_cons_self _ _) with rfl | ⟨a, ha, hmem, hact, hfl, hn⟩
      · exact MatchReach.base
      · exact MatchReach.step ha hmem hact hfl (hcol.trans rfl) hn
    apply ih
    · intro t ht
      rcases List.mem_append.mp ht with h | h
      · rw [List.mem_reverse] at h
        obtain ⟨hmem, hact, hfl, _, hn⟩ :=
          (bfs_filter_iff board (current.id :: visited) current t).mp h
        exact Or.inr ⟨current, hcur, hmem, hact, hfl, hn⟩
      · exact hs t (List.mem_cons_of_mem _ h)
    · intro m hmm
      rcases List.mem_append.mp hmm with h | h
      · exact hm m h
      · rw [List.mem_singleton.mp h]
        exact hcur
  | case4 current rest visited matched hvis visited' hcol ih =>
    intro hs hm
    rw [cmLoop_nomatch board start.color current rest visited matched hvis hcol]
    exact ih (fun t ht => hs t (List.mem_cons_of_mem _ ht)) hm

/-- The visited set only grows. -/
theorem cmLoop_vis_mono (board : List Bubble) (sc : BubbleColor) :
    ∀ (stack : List Bubble) (visited : List Nat) (matched : List Bubble),
      ∀ i ∈ visited, i ∈ (checkMatchesLoop board sc stack visited matched).2 := by
  intro stack visited matched
  induction stack, visited, matched using checkMatchesLoop.induct board sc with
  | case1 visited matched =>
    intro i hi
    rw [cmLoop_nil]
    exact hi
  | case2 current rest visited matched hvis ih =>
    intro i hi
    rw [cmLoop_visited board sc current rest visited matched hvis]
    exact ih i hi
  | case3 current rest visited matched hvis visited' hcol pushed ih =>
    intro i hi
    rw [cmLoop_match board sc current rest visited matched hvis hcol]
    exact ih i (List.mem_cons_of_mem _ hi)
  | case4 current rest visited matched hvis visited' hcol ih =>
    intro i hi
    rw [cmLoop_nomatch board sc current rest visited matched hvis hcol]
    exact ih i (List.mem_cons_of_mem _ hi)

/-- Every stacked bubble's id is visited at the fixpoint. -/
theorem cmLoop_stack_vis (board : List Bubble) (sc : BubbleColor) :
    ∀ (stack : List Bubble) (visited : List Nat) (matched : List Bubble),
      ∀ t ∈ stack, t.id ∈ (checkMatchesLoop board sc stack visited matched).2 := by
  intro stack visited matched
  induction stack, visited, matched using checkMatchesLoop.induct board sc with
  | case1 visited matched =>
    intro t ht
    exact absurd ht (List.not_mem_nil t)
  | case2 current rest visited matched hvis ih =>
    intro t ht
    rw [cmLoop_visited board sc current rest visited matched hvis]
    rcases List.mem_cons.mp ht with rfl | h
    · exact cmLoop_vis_mono board sc rest visited matched t.id hvis
    · exact ih t h
  | case3 current rest visited matched hvis visited' hcol pushed ih =>
    intro t ht
    rw [cmLoop_match board sc current rest visited matched hvis hcol]
    rcases List.mem_cons.mp ht with rfl | h
    · exact cmLoop_vis_mono board sc _ _ _ t.id (List.mem_cons_self _ _)
    · exact ih t (List.mem_append_right _ h)
  | case4 current rest visited matched hvis visited' hcol ih =>
    intro t ht
    rw [cmLoop_nomatch board sc current rest visited matched hvis hcol]
    rcases List.mem_cons.mp ht with rfl | h
    · exact cmLoop_vis_mono board sc rest _ matched t.id (List.mem_cons_self _ _)
    · exact ih t h

/-- Closure: at the fixpoint, every visited board bubble of the start color
has been collected and has had all its active, non-floating neighbors
visited. -/
theorem cmLoop_closed (board : List Bubble) (start : Bubble)
    (hnd : (board.map Bubble.id).Nodup) :
    ∀ (stack : List Bubble) (visited : List Nat) (matched : List Bubble),
      (∀ t ∈ stack, t ∈ board) →
      (∀ a, a ∈ board → a.color = start.color → a.id ∈ visited →
        a ∈ matched ∧ (∀ b, b ∈ board → b.active = true → b.isFloating = false →
          isNeighbor a b = true → (b.id ∈ visited ∨ b ∈ stack))) →
      ∀ a, a ∈ board → a.color = start.color →
        a.id ∈ (checkMatchesLoop board start.color stack visited matched).2 →
        a ∈ (checkMatchesLoop board start.color stack visited matched).1 ∧
          (∀ b, b ∈ board → b.active = true → b.isFloating = false →
            isNeighbor a b = true →
            b.id ∈ (checkMatchesLoop board start.color stack visited matched).2) := by
  intro stack visited matched
  induction stack, visited, matched using checkMatchesLoop.induct board start.color with
  | case1 visited matched =>
    intro _ hinv a hamem hacol haid
    rw [cmLoop_nil] at haid ⊢
    obtain ⟨h1, h2⟩ := hinv a hamem hacol haid
    refine ⟨h1, fun b hb hba hbf hn => ?_⟩
    rcases h2 b hb hba hbf hn with h | h
    · exact h
    · exact absurd h (List.not_mem_nil b)
  | case2 current rest visited matched hvis ih =>
    intro hstk hinv
    rw [cmLoop_visited board start.color current rest visited matched hvis]
    apply ih (fun t ht => hstk t (List.mem_cons_of_mem _ ht))
    intro a hamem hacol haid
    obtain ⟨h1, h2⟩ := hinv a hamem hacol haid
    refine ⟨h1, fun b hb hba hbf hn => ?_⟩
    rcases h2 b hb hba hbf hn with h | h
    · exact Or.inl h
    · rcases List.mem_cons.mp h with rfl | h'
      · exact Or.inl hvis
      · exact Or.inr h'
  | case3 current rest visited matched hvis visited' hcol pushed ih =>
    intro hstk hinv
    rw [cmLoop_match board start.color current rest visited matched hvis hcol]
    apply ih
    · intro t ht
      rcases List.mem_append.mp ht with h | h
      · rw [List.mem_reverse] at h
        exact ((bfs_filter_iff board (current.id :: visited) current t).mp h).1
      · exact hstk t (List.mem_cons_of_mem _ h)
    · intro a hamem hacol haid
      rcases List.mem_cons.mp haid with heq | hold
      · have hacur : a = current :=
          id_inj_of_nodup hnd hamem (hstk current (List.mem_cons_self _ _)) heq
        subst hacur
        refine ⟨List.mem_append_right _ (List.mem_singleton.mpr rfl), ?_⟩
        intro b hb hba hbf hn
        by_cases hbv : b.id ∈ (a.id :: visited)
        · exact Or.inl hbv
        · refine Or.inr (List.mem_append_left _ ?_)
          rw [List.mem_reverse]
          exact (bfs_filter_iff board (a.id :: visited) a b).mpr ⟨hb, hba, hbf, hbv, hn⟩
      · obtain ⟨h1, h2⟩ := hinv a hamem hacol hold
        refine ⟨List.mem_append_left _ h1, fun b hb hba hbf hn => ?_⟩
        rcases h2 b hb hba hbf hn with h | h
        · exact Or.inl (List.mem_cons_of_mem _ h)
        · rcases List.mem_cons.mp h with rfl | h'
          · exact Or.inl (List.mem_cons_self _ _)
          · exact Or.inr (List.mem_append_right _ h')
  | case4 current rest visited matched hvis visited' hcol ih =>
    intro hstk hinv
    rw [cmLoop_nomatch board start.color current rest visited matched hvis hcol]
    apply ih (fun t ht => hstk t (List.mem_cons_of_mem _ ht))
    intro a hamem hacol haid
    rcases List.mem_cons.mp haid with heq | hold
    · have hac : a = current :=
        id_inj_of_nodup hnd hamem (hstk current (List.mem_cons_self _ _)) heq
      exact absurd (hac ▸ hacol) hcol
    · obtain ⟨h1, h2⟩ := hinv a hamem hacol hold
      refine ⟨h1, fun b hb hba hbf hn => ?_⟩
      rcases h2 b hb hba hbf hn with h | h
      · exact Or.inl (List.mem_cons_of_mem _ h)
      · rcases List.mem_cons.mp h with rfl | h'
        · exact Or.inl (List.mem_cons_self _ _)
        · exact Or.inr h'

/-- The collected matches list never holds duplicates. -/
theorem cmLoop_nodup (board : List Bubble) (sc : BubbleColor) :
    ∀ (stack : List Bubble) (visited : List Nat) (matched : List Bubble),
      matched.Nodup → (∀ m ∈ matched, m.id ∈ visited) →
      (checkMatchesLoop board sc stack visited matched).1.Nodup := by
  intro stack visited matched
  induction stack, visited, matched using checkMatchesLoop.induct board sc with
  | case1 visited matched =>
    intro hnd _
    rw [cmLoop_nil]
    exact hnd
  | case2 current rest visited matched hvis ih =>
    intro hnd hids
    rw [cmLoop_visited board sc current rest visited matched hvis]
    exact ih hnd hids
  | case3 current rest visited matched hvis visited' hcol pushed ih =>
    intro hnd hids
    rw [cmLoop_match board sc current rest visited matched hvis hcol]
    apply ih
    · refine List.Nodup.append hnd (List.nodup_singleton current) ?_
      intro x hx hx'
      rw [List.mem_singleton.mp hx'] at hx
      exact hvis (hids current hx)
    · intro m hm
      rcases List.mem_append.mp hm with h | h
      · exact List.mem_cons_of_mem _ (hids m h)
      · rw [List.mem_singleton.mp h]
        exact List.mem_cons_self _ _
  | case4 current rest visited matched hvis visited' hcol ih =>
    intro hnd hids
    rw [cmLoop_nomatch board sc current rest visited matched hvis hcol]
    exact ih hnd (fun m hm => List.mem_cons_of_mem _ (hids m hm))

/-- The flood fill collects exactly the same-color cluster of `start`. -/
theorem checkMatches_mem (board : List Bubble) (start : Bubble)
    (hnd : (board.map Bubble.id).Nodup) (hstart : start ∈ board) (b : Bubble) :
    b ∈ (checkMatchesLoop board start.color [start] [] []).1 ↔
      MatchReach board start b := by
  have hstk0 : ∀ t ∈ [start], t ∈ board := by
    intro t ht
    rw [List.mem_singleton.mp ht]
    exact hstart
  have hinv0 : ∀ a, a ∈ board → a.color = start.color → a.id ∈ ([] : List Nat) →
      a ∈ ([] : List Bubble) ∧ (∀ c, c ∈ board → c.active = true → c.isFloating = false →
        isNeighbor a c = true → (c.id ∈ ([] : List Nat) ∨ c ∈ [start])) :=
    fun a _ _ h => absurd h (List.not_mem_nil _)
  have hclosed := cmLoop_closed board start hnd [start] [] [] hstk0 hinv0
  have haux : ∀ c, MatchReach board start c →
      c.id ∈ (checkMatchesLoop board start.color [start] [] []).2 ∧
        c ∈ (checkMatchesLoop board start.color [start] [] []).1 := by
    intro c hc
    induction hc with
    | base =>
      have hidv : start.id ∈ (checkMatchesLoop board start.color [start] [] []).2 :=
        cmLoop_stack_vis board start.color [start] [] [] start (List.mem_singleton.mpr rfl)
      exact ⟨hidv, (hclosed start hstart rfl hidv).1⟩
    | step ha hbmem hbact hbfl hbcol hn ih =>
      rename_i a c'
      obtain ⟨hav, _⟩ := ih
      have hamem : a ∈ board := by
        rcases ha.mem_or with rfl | ⟨h, _, _⟩
        · exact hstart
        · exact h
      have hbv := (hclosed a hamem ha.color_eq hav).2 c' hbmem hbact hbfl hn
      exact ⟨hbv, (hclosed c' hbmem hbcol hbv).1⟩
  constructor
  · intro hb
    exact cmLoop_sound board start [start] [] []
      (fun t ht => Or.inl (List.mem_singleton.mp ht))
      (fun m hm => absurd hm (List.not_mem_nil m)) b hb
  · intro hb
    exact (haux b hb).2

/-- C2: every sphere the flood fill from `start` collects has `start`'s color,
and the collected set is maximal — no same-colored active non-floating board
sphere adjacent to a member is excluded. -/
theorem c2_cluster_purity (board : List Bubble) (start : Bubble)
    (hnd : (board.map Bubble.id).Nodup) (hstart : start ∈ board)
    (hact : start.active = true) (hfl : start.isFloating = false) :
    (∀ b ∈ (checkMatches board start).1, b.color = start.color) ∧
    (∀ m ∈ (checkMatches board start).1, ∀ b, b ∈ board → b.active = true →
      b.isFloating = false → b.color = start.color → isNeighbor m b = true →
      b ∈ (checkMatches board start).1) := by
  constructor
  · intro b hb
    exact ((checkMatches_mem board start hnd hstart b).mp hb).color_eq
  · intro m hm b hbmem hbact hbfl hbcol hn
    have hmr := (checkMatches_mem board start hnd hstart m).mp hm
    exact (checkMatches_mem board start hnd hstart b).mpr
      (MatchReach.step hmr hbmem hbact hbfl hbcol hn)

/-- C2 witness: on the two-sphere one-row red board the theorem applies. -/
theorem c2_witness :
    (([mkCell 0 0 0, mkCell 1 0 1].map Bubble.id).Nodup ∧
      mkCell 0 0 0 ∈ [mkCell 0 0 0, mkCell 1 0 1] ∧
      (mkCell 0 0 0).active = true ∧ (mkCell 0 0 0).isFloating = false) ∧
    ((∀ b ∈ (checkMatches [mkCell 0 0 0, mkCell 1 0 1] (mkCell 0 0 0)).1,
        b.color = (mkCell 0 0 0).color) ∧
      (∀ m ∈ (checkMatches [mkCell 0 0 0, mkCell 1 0 1] (mkCell 0 0 0)).1,
        ∀ b, b ∈ [mkCell 0 0 0, mkCell 1 0 1] → b.active = true →
          b.isFloating = false → b.color = (mkCell 0 0 0).color →
          isNeighbor m b = true →
          b ∈ (checkMatches [mkCell 0 0 0, mkCell 1 0 1] (mkCell 0 0 0)).1)) :=
  ⟨⟨by decide, by decide, rfl, rfl⟩,
    c2_cluster_purity [mkCell 0 0 0, mkCell 1 0 1] (mkCell 0 0 0)
      (by decide) (by decide) rfl rfl⟩

/-- C3: against any set `S` that is exactly the maximal same-color cluster of
the newly placed sphere, the matcher fires (`true`, quiz triggered, pending
set = the cluster) iff `S` has at least 3 spheres; clusters of size 1 or 2
never fire. -/
theorem c3_match_threshold (board : List Bubble) (start : Bubble)
    (hnd : (board.map Bubble.id).Nodup) (hstart : start ∈ board)
    (hact : start.active = true) (hfl : start.isFloating = false)
    (S : Finset Bubble) (hS : ∀ b, b ∈ S ↔ MatchReach board start b) :
    (S.card ≤ 2 → (checkMatches board start).2 = false) ∧
    (3 ≤ S.card → (checkMatches board start).2 = true ∧
      ∀ b, b ∈ (checkMatches board start).1 ↔ b ∈ S) := by
  have hmm : ∀ b, b ∈ (checkMatches board start).1 ↔ b ∈ S := by
    intro b
    rw [hS b]
    exact checkMatches_mem board start hnd hstart b
  have hnd' : (checkMatches board start).1.Nodup :=
    cmLoop_nodup board start.color [start] [] [] List.nodup_nil
      (fun m hm => absurd hm (List.not_mem_nil m))
  have hfs : (checkMatches board start).1.toFinset = S := by
    apply Finset.ext
    intro b
    rw [List.mem_toFinset]
    exact hmm b
  have hlen : (checkMatches board start).1.length = S.card := by
    rw [← hfs, List.toFinset_card_of_nodup hnd']
  have h2 : (checkMatches board start).2 =
      decide ((checkMatches board start).1.length ≥ 3) := rfl
  constructor
  · intro hle
    rw [h2, decide_eq_false_iff_not]
    omega
  · intro hge
    refine ⟨?_, hmm⟩
    rw [h2, decide_eq_true_eq]
    omega

/-- C3 witness: a lone sphere is its own cluster of size 1, so no match
fires. -/
theorem c3_witness :
    (([mkCell 0 0 0].map Bubble.id).Nodup ∧ mkCell 0 0 0 ∈ [mkCell 0 0 0] ∧
      ({mkCell 0 0 0} : Finset Bubble).card ≤ 2) ∧
    (checkMatches [mkCell 0 0 0] (mkCell 0 0 0)).2 = false := by
  have hS : ∀ b, b ∈ ({mkCell 0 0 0} : Finset Bubble) ↔
      MatchReach [mkCell 0 0 0] (mkCell 0 0 0) b := by
    intro b
    constructor
    · intro h
      rw [Finset.mem_singleton.mp h]
      exact MatchReach.base
    · intro h
      rcases h.mem_or with rfl | ⟨hm, _, _⟩
      · exact Finset.mem_singleton.mpr rfl
      · exact Finset.mem_singleton.mpr (List.mem_singleton.mp hm)
  refine ⟨⟨by decide, by decide, by decide⟩, ?_⟩
  exact (c3_match_threshold [mkCell 0 0 0] (mkCell 0 0 0) (by decide) (by decide) rfl rfl
    {mkCell 0 0 0} hS).1 (by decide)

/-! ### Orphan detection inside match confirmation (C4) and scoring (C5) -/

/-- C4: `findFloatingBubbles` returns exactly the active, non-floating spheres
with no general-adjacency path to any active non-floating row-0 sphere; and
`completeMatch` invokes it on the board in which every sphere of the
confirmed cluster has already been deactivated — orphanhood is judged against
the post-removal board, whose orphans the result board then carries as
floating. -/
theorem c4_orphan_correctness (board : List Bubble) (hnd : (board.map Bubble.id).Nodup)
    (pending : List Bubble) (score : Nat) (now : ℚ) (reseed : List Bubble) :
    (∀ b, b ∈ findFloatingBubbles board ↔
      b ∈ board ∧ b.active = true ∧ b.isFloating = false ∧ ¬CeilReach board b) ∧
    (∀ b ∈ board.map (deactivate pending now), b.id ∈ pending.map Bubble.id →
      b.active = false) ∧
    ((completeMatch true pending board score now reseed).reseeded = false →
      (completeMatch true pending board score now reseed).board =
        (board.map (deactivate pending now)).map
          (markFloating (findFloatingBubbles (board.map (deactivate pending now))))) := by
  refine ⟨fun b => findFloating_spec board hnd b, ?_, ?_⟩
  · intro b hb hid
    obtain ⟨b₀, hb₀, rfl⟩ := List.mem_map.mp hb
    obtain ⟨p, hp, hpid⟩ := List.mem_map.mp hid
    have hcond : pending.any (fun q => q.id == b₀.id) = true := by
      rw [List.any_eq_true]
      refine ⟨p, hp, ?_⟩
      rw [beq_iff_eq, hpid, (statusMap_id pending [] now b₀).1]
    unfold deactivate
    rw [if_pos hcond]
  · intro hres
    rw [completeMatch_true_eq] at hres ⊢
    simp only at hres ⊢
    by_cases hc : ((if (findFloatingBubbles (board.map (deactivate pending now))).length > 0
        then (board.map (deactivate pending now)).map
          (markFloating (findFloatingBubbles (board.map (deactivate pending now))))
        else board.map (deactivate pending now)).filter
          (fun x => x.active && !x.isFloating)).length = 0
    · rw [if_pos hc] at hres
      exact absurd hres (by simp)
    · rw [if_neg hc]
      simp only
      by_cases hlen : (findFloatingBubbles (board.map (deactivate pending now))).length > 0
      · rw [if_pos hlen]
      · rw [if_neg hlen]
        have hfl : findFloatingBubbles (board.map (deactivate pending now)) = [] :=
          List.eq_nil_of_length_eq_zero (by omega)
        rw [hfl]
        have hmap1 : (board.map (deactivate pending now)).map
            (markFloating ([] : List Bubble)) = (board.map (deactivate pending now)).map id :=
          List.map_congr_left (fun b _ => rfl)
        rw [hmap1, List.map_id]

/-- C4 witness: a lone sphere at row 1 with no ceiling path. -/
theorem c4_witness :
    (([mkCell 9 1 0].map Bubble.id).Nodup) ∧
    (mkCell 9 1 0 ∈ findFloatingBubbles [mkCell 9 1 0] ↔
      mkCell 9 1 0 ∈ [mkCell 9 1 0] ∧ (mkCell 9 1 0).active = true ∧
        (mkCell 9 1 0).isFloating = false ∧ ¬CeilReach [mkCell 9 1 0] (mkCell 9 1 0)) :=
  ⟨by decide, (c4_orphan_correctness [mkCell 9 1 0] (by decide) [] 0 0 []).1 (mkCell 9 1 0)⟩

/-- C5: confirming a non-empty pending cluster of `n` spheres of color `c`
adds exactly `n * points c + orphanCount * points c * 2 + 500` to the score,
where `orphanCount` counts the spheres newly found floating after the
removal; declining leaves both score and board untouched. -/
theorem c5_score_delta (board pending : List Bubble) (c : BubbleColor) (score : Nat)
    (now : ℚ) (reseed : List Bubble)
    (hne : pending ≠ [])
    (hcol : ∀ p ∈ pending, p.color = c)
    (hsub : ∀ p ∈ pending, p ∈ board)
    (hact : ∀ p ∈ pending, p.active = true ∧ p.isFloating = false) :
    ((completeMatch true pending board score now reseed).score =
      score + pending.length * points c +
        (findFloatingBubbles (board.map (deactivate pending now))).length * points c * 2 +
        500) ∧
    ((completeMatch false pending board score now reseed).score = score ∧
      (completeMatch false pending board score now reseed).board = board) := by
  have hbase : (pending.head?.map Bubble.color).getD .red = c := by
    cases pending with
    | nil => exact absurd rfl hne
    | cons q t =>
      simp only [List.head?_cons, Option.map_some', Option.getD_some]
      exact hcol q (List.mem_cons_self _ _)
  constructor
  · rw [completeMatch_true_eq]
    simp only
    rw [hbase]
    by_cases hlen : (findFloatingBubbles (board.map (deactivate pending now))).length > 0
    · rw [if_pos hlen, if_pos hlen]
      split <;>
      · simp only
        omega
    · rw [if_neg hlen, if_neg hlen]
      have h0 : (findFloatingBubbles (board.map (deactivate pending now))).length = 0 := by
        omega
      split <;>
      · simp only
        rw [h0]
        omega
  · have hcount : ¬((board.filter (fun b => b.active && !b.isFloating)).length = 0) := by
      intro h0
      obtain ⟨p, hp⟩ : ∃ p, p ∈ pending := by
        cases pending with
        | nil => exact absurd rfl hne
        | cons q t => exact ⟨q, List.mem_cons_self _ _⟩
      have hmem : p ∈ board.filter (fun b => b.active && !b.isFloating) := by
        rw [List.mem_filter]
        refine ⟨hsub p hp, ?_⟩
        simp only [Bool.and_eq_true, Bool.not_eq_true']
        exact ⟨(hact p hp).1, (hact p hp).2⟩
      rw [List.length_eq_zero] at h0
      rw [h0] at hmem
      exact absurd hmem (List.not_mem_nil p)
    have hres : completeMatch false pending board score now reseed =
        { board := board, score := score, reseeded := false } := by
      unfold completeMatch
      simp only [Bool.false_eq_true, if_false, if_neg hcount]
    rw [hres]
    exact ⟨rfl, rfl⟩

/-- C5 witness: a lone red sphere confirmed as its own (sub-threshold)
pending set. -/
theorem c5_witness :
    (([mkCell 0 0 0] : List Bubble) ≠ [] ∧
      (∀ p ∈ ([mkCell 0 0 0] : List Bubble), p.color = BubbleColor.red) ∧
      (∀ p ∈ ([mkCell 0 0 0] : List Bubble), p ∈ [mkCell 0 0 0]) ∧
      (∀ p ∈ ([mkCell 0 0 0] : List Bubble), p.active = true ∧ p.isFloating = false)) ∧
    ((completeMatch false [mkCell 0 0 0] [mkCell 0 0 0] 0 0 []).score = 0 ∧
      (completeMatch false [mkCell 0 0 0] [mkCell 0 0 0] 0 0 []).board = [mkCell 0 0 0]) :=
  ⟨⟨by decide, by decide, by decide, by decide⟩,
    (c5_score_delta [mkCell 0 0 0] [mkCell 0 0 0] .red 0 0 []
      (by decide) (by decide) (by decide) (by decide)).2⟩

/-! ### Spawn timer vs. quiz resolution (C8) -/

/-- The one-sphere ceiling board has no orphans. -/
theorem findFloating_single_ceiling : findFloatingBubbles [mkCell 7 0 0] = [] := by
  unfold findFloatingBubbles
  simp only
  rw [show [mkCell 7 0 0].filter (fun x => x.row == 0 && x.active && !x.isFloating) =
    [mkCell 7 0 0] from rfl]
  rw [bfsLoop_cons]
  rw [show [mkCell 7 0 0].filter
      (fun b => b.active && !b.isFloating &&
        !([mkCell 7 0 0].map Bubble.id).contains b.id && isNeighbor (mkCell 7 0 0) b) =
    ([] : List Bubble) from rfl]
  simp only [List.append_nil, List.map_nil]
  rw [bfsLoop_nil]
  rfl

unseal Rat.add Rat.sub Rat.mul Rat.inv in
/-- C8, counterexample: the claim says the spawn timer's reference point is
reset when the pending match is resolved.  On the one-ceiling-sphere board
with an awarded empty pending set resolved at `t = 50001`, `completeMatch`
leaves `lastDropTime` at its old value `0` (it is written only by `initGrid`
and `addNewRow`), so the reference is not the resolution time and a frame at
`t = 50002` immediately fires a row spawn on Medium (interval `40000`): the
wall-clock time spent awaiting the answer counted in full. -/
theorem c8_counterexample :
    (completeMatchE true [] 50001 []
      { board := [mkCell 7 0 0], score := 0, lastDropTime := 0,
        isQuizActive := true }).lastDropTime = 0 ∧
    (0 : ℚ) ≠ 50001 ∧
    autoDropFires (completeMatchE true [] 50001 []
      { board := [mkCell 7 0 0], score := 0, lastDropTime := 0, isQuizActive := true })
      50002 .Medium false false false = true := by
  have hcm : completeMatch true [] [mkCell 7 0 0] 0 50001 [] =
      { board := [mkCell 7 0 0], score := 500, reseeded := false } := by
    rw [completeMatch_true_eq]
    simp only
    rw [show [mkCell 7 0 0].map (deactivate [] 50001) = [mkCell 7 0 0] from rfl,
      findFloating_single_ceiling]
    rfl
  have hE : completeMatchE true [] 50001 []
      { board := [mkCell 7 0 0], score := 0, lastDropTime := 0, isQuizActive := true } =
      { board := [mkCell 7 0 0], score := 500, lastDropTime := 0, isQuizActive := false } := by
    unfold completeMatchE
    rw [hcm]
    rfl
  refine ⟨by rw [hE], by decide, ?_⟩
  rw [hE]
  decide

/-- C8 (amended): while a match is pending (`isQuizActive`) the auto-drop gate
never fires, but resolution does not reset the spawn timer: whenever some
settled sphere outside the confirmed cluster survives the removal without
being orphaned (so the board is not cleared and reseeded), `lastDropTime`
keeps its pre-quiz value — the reference point is rewritten only by an actual
row insertion or a board reseed, and quiz wall-time counts toward the next
spawn interval. -/
theorem c8_amended (s : EngineState) :
    (∀ (now : ℚ) (difficulty : Difficulty) (isPinching isFlying gameWon : Bool),
      s.isQuizActive = true →
      autoDropFires s now difficulty isPinching isFlying gameWon = false) ∧
    (∀ (pending : List Bubble) (now : ℚ) (reseed : List Bubble) (b : Bubble),
      b ∈ s.board → b.active = true → b.isFloating = false →
      b.id ∉ pending.map Bubble.id →
      b.id ∉ (findFloatingBubbles (s.board.map (deactivate pending now))).map Bubble.id →
      (completeMatchE true pending now reseed s).lastDropTime = s.lastDropTime) := by
  constructor
  · intro now difficulty isPinching isFlying gameWon hq
    unfold autoDropFires
    rw [hq]
    rfl
  · intro pending now reseed b hb hact hfl hpend horph
    have hdeact : deactivate pending now b = b := by
      unfold deactivate
      rw [if_neg]
      intro hany
      obtain ⟨p, hp, hpid⟩ := List.any_eq_true.mp hany
      exact hpend (List.mem_map.mpr ⟨p, hp, beq_iff_eq.mp hpid⟩)
    have hmark : markFloating (findFloatingBubbles (s.board.map (deactivate pending now)))
        b = b := by
      unfold markFloating
      rw [if_neg]
      intro hany
      obtain ⟨p, hp, hpid⟩ := List.any_eq_true.mp hany
      exact horph (List.mem_map.mpr ⟨p, hp, beq_iff_eq.mp hpid⟩)
    have hsurvive : ∀ (l : List Bubble), b ∈ l →
        ¬((l.filter (fun x => x.active && !x.isFloating)).length = 0) := by
      intro l hl h0
      have hmem : b ∈ l.filter (fun x => x.active && !x.isFloating) := by
        rw [List.mem_filter]
        refine ⟨hl, ?_⟩
        simp only [Bool.and_eq_true, Bool.not_eq_true']
        exact ⟨hact, hfl⟩
      rw [List.length_eq_zero] at h0
      rw [h0] at hmem
      exact absurd hmem (List.not_mem_nil b)
    have hb1 : b ∈ s.board.map (deactivate pending now) := by
      rw [← hdeact]
      exact List.mem_map_of_mem _ hb
    have hres : (completeMatch true pending s.board s.score now reseed).reseeded = false := by
      rw [completeMatch_true_eq]
      simp only
      by_cases hlen :
          (findFloatingBubbles (s.board.map (deactivate pending now))).length > 0
      · rw [if_pos hlen, if_pos hlen]
        rw [if_neg (hsurvive _ (by rw [← hmark]; exact List.mem_map_of_mem _ hb1))]
      · rw [if_neg hlen, if_neg hlen]
        rw [if_neg (hsurvive _ hb1)]
    unfold completeMatchE
    simp only [hres, if_false, Bool.false_eq_true]
  
/-- The engine state used by the C8 scenario: one ceiling sphere, quiz open,
spawn reference at time 0. -/
def c8State : EngineState :=
  { board := [mkCell 7 0 0], score := 0, lastDropTime := 0, isQuizActive := true }

/-- C8 amended witness: a quiz-active state never spawns, and the concrete
one-ceiling-sphere resolution keeps `lastDropTime = 0`. -/
theorem c8_witness :
    (c8State.isQuizActive = true ∧
      autoDropFires c8State 99999 .Easy false false false = false) ∧
    (completeMatchE true [] 50001 [] c8State).lastDropTime = c8State.lastDropTime := by
  refine ⟨⟨rfl, (c8_amended c8State).1 99999 .Easy false false false rfl⟩, ?_⟩
  refine (c8_amended c8State).2 [] 50001 [] (mkCell 7 0 0) (by decide) rfl rfl (by decide) ?_
  rw [show (c8State.board.map (deactivate [] 50001)) = [mkCell 7 0 0] from rfl,
    findFloating_single_ceiling]
  exact List.not_mem_nil _

/-! ### Color policy (C9) -/

theorem jsDedupAux_mem (c : BubbleColor) :
    ∀ (l : List BubbleColor) (seen : List BubbleColor),
      c ∈ jsDedupAux seen l ↔ c ∈ l ∧ c ∉ seen := by
  intro l
  induction l with
  | nil =>
    intro seen
    simp [jsDedupAux]
  | cons a rest ih =>
    intro seen
    unfold jsDedupAux
    by_cases hseen : seen.contains a
    · rw [if_pos hseen, ih seen]
      have ha : a ∈ seen := by
        rw [← List.elem_iff]
        exact hseen
      constructor
      · rintro ⟨h1, h2⟩
        exact ⟨List.mem_cons_of_mem _ h1, h2⟩
      · rintro ⟨h1, h2⟩
        rcases List.mem_cons.mp h1 with rfl | h1'
        · exact absurd ha h2
        · exact ⟨h1', h2⟩
    · rw [if_neg hseen]
      have ha : a ∉ seen := by
        intro hmem
        exact hseen (List.elem_iff.mpr hmem)
      constructor
      · intro h
        rcases List.mem_cons.mp h with rfl | h'
        · exact ⟨List.mem_cons_self _ _, ha⟩
        · obtain ⟨h1, h2⟩ := (ih (seen ++ [a])).mp h'
          refine ⟨List.mem_cons_of_mem _ h1, fun hc => h2 (List.mem_append_left _ hc)⟩
      · rintro ⟨h1, h2⟩
        rcases List.mem_cons.mp h1 with rfl | h1'
        · exact List.mem_cons_self _ _
        · by_cases hca : c = a
          · rw [hca]
            exact List.mem_cons_self _ _
          · refine List.mem_cons_of_mem _ ((ih (seen ++ [a])).mpr ⟨h1', ?_⟩)
            intro hc
            rcases List.mem_append.mp hc with h | h
            · exact h2 h
            · exact hca (List.mem_singleton.mp h)

theorem jsDedup_mem (c : BubbleColor) (l : List BubbleColor) : c ∈ jsDedup l ↔ c ∈ l := by
  unfold jsDedup
  rw [jsDedupAux_mem]
  simp

/-- A pick from a nonempty list is a member. -/
theorem pickColor_mem (xs : List BubbleColor) (k : Nat) (h : xs ≠ []) :
    pickColor xs k ∈ xs := by
  unfold pickColor
  have hlen : 0 < xs.length := List.length_pos.mpr h
  have hlt : k % xs.length < xs.length := Nat.mod_lt _ hlen
  rw [List.getD_eq_getElem?_getD, List.getElem?_eq_getElem hlt]
  exact List.getElem_mem _

/-- Members of the not-forbidden filter avoid the forbidden set. -/
theorem mem_not_forbidden {forbidden : List BubbleColor} {l : List BubbleColor}
    {c : BubbleColor} (h : c ∈ l.filter (fun x => !forbidden.contains x)) :
    c ∈ l ∧ c ∉ forbidden := by
  rw [List.mem_filter] at h
  refine ⟨h.1, fun hc => ?_⟩
  have := h.2
  rw [Bool.not_eq_true'] at this
  rw [← List.elem_iff] at hc
  rw [show forbidden.contains c = forbidden.elem c from rfl] at this
  rw [this] at hc
  exact Bool.false_ne_true hc

/-- C9, counterexample: the claim says an arbitrary palette color is returned
only when the palette minus the forbidden set is empty.  But with no active
sphere on the board the source returns an arbitrary palette color up front:
with every color but orange forbidden (palette minus forbidden nonempty), the
draw can return the forbidden red. -/
theorem c9_counterexample :
    COLOR_KEYS.filter
      (fun c => !([BubbleColor.red, .blue, .green, .yellow, .purple].contains c)) ≠ [] ∧
    getNextBubbleColor [] [BubbleColor.red, .blue, .green, .yellow, .purple] .Medium
      ⟨0, 0, false, 0, 0⟩ ∈ [BubbleColor.red, .blue, .green, .yellow, .purple] := by
  constructor
  · decide
  · decide

/-- C9 (amended): whenever the board still holds at least one active sphere
and the palette minus the forbidden set is nonempty, `getNextBubbleColor`
never returns a forbidden color, under every random outcome. -/
theorem c9_amended (currentBubbles : List Bubble) (forbidden : List BubbleColor)
    (difficulty : Difficulty) (r : ColorRand)
    (hne : COLOR_KEYS.filter (fun c => !forbidden.contains c) ≠ [])
    (hact : ∃ b ∈ currentBubbles, b.active = true) :
    getNextBubbleColor currentBubbles forbidden difficulty r ∉ forbidden := by
  unfold getNextBubbleColor
  have hcolors :
      jsDedup ((currentBubbles.filter (fun b => b.active)).map Bubble.color) ≠ [] := by
    obtain ⟨b, hb, hba⟩ := hact
    intro hnil
    have : b.color ∈ jsDedup ((currentBubbles.filter (fun b => b.active)).map Bubble.color) := by
      rw [jsDedup_mem]
      exact List.mem_map_of_mem _ (List.mem_filter.mpr ⟨hb, hba⟩)
    rw [hnil] at this
    exact absurd this (List.not_mem_nil _)
  rw [if_neg (fun h => hcolors (List.length_eq_zero.mp h))]
  simp only
  set activeColors := jsDedup ((currentBubbles.filter (fun b => b.active)).map Bubble.color)
  set candidates0 := activeColors.filter (fun c => !forbidden.contains c) with hc0
  by_cases hc0e : candidates0.length = 0
  · rw [if_pos hc0e]
    rw [if_neg (fun h => hne (List.length_eq_zero.mp h))]
    by_cases hintro : r.introduceNew = true
    · rw [if_pos hintro]
      rw [if_pos (List.length_pos.mpr hne)]
      exact (mem_not_forbidden (pickColor_mem _ r.kIntroduce hne)).2
    · rw [if_neg hintro]
      exact (mem_not_forbidden (pickColor_mem _ r.kFinal hne)).2
  · rw [if_neg hc0e]
    have hc0ne : candidates0 ≠ [] := fun h => hc0e (by rw [h]; rfl)
    rw [if_neg (fun h => hc0ne (List.length_eq_zero.mp h))]
    by_cases hintro : r.introduceNew = true
    · rw [if_pos hintro]
      by_cases hav : (COLOR_KEYS.filter (fun c => !forbidden.contains c)).length > 0
      · rw [if_pos hav]
        exact (mem_not_forbidden (pickColor_mem _ r.kIntroduce hne)).2
      · rw [if_neg hav]
        exact (mem_not_forbidden (pickColor_mem _ r.kFinal hc0ne)).2
    · rw [if_neg hintro]
      exact (mem_not_forbidden (pickColor_mem _ r.kFinal hc0ne)).2

/-- C9 amended witness: one active red sphere, blue forbidden — the returned
color is never blue. -/
theorem c9_witness :
    (COLOR_KEYS.filter (fun c => !([BubbleColor.blue].contains c)) ≠ [] ∧
      ∃ b ∈ [mkCell 0 0 0], b.active = true) ∧
    getNextBubbleColor [mkCell 0 0 0] [BubbleColor.blue] .Easy ⟨1, 2, true, 3, 4⟩ ∉
      [BubbleColor.blue] :=
  ⟨⟨by decide, ⟨mkCell 0 0 0, by decide, rfl⟩⟩,
    c9_amended [mkCell 0 0 0] [BubbleColor.blue] .Easy ⟨1, 2, true, 3, 4⟩ (by decide)
      ⟨mkCell 0 0 0, by decide, rfl⟩⟩

/-! ### Board-cell uniqueness (C6) -/

/-- The grid loops enumerate pairwise-distinct cells. -/
theorem gridCells_nodup (rows cols : Nat) : (gridCells rows cols).Nodup := by
  unfold gridCells
  rw [List.nodup_flatMap]
  constructor
  · intro r _
    have hinj : Function.Injective (fun c : Nat => (r, c)) :=
      fun c1 c2 h => congrArg Prod.snd h
    exact (List.nodup_range _).map hinj
  · apply List.Pairwise.imp ?_ (List.nodup_range rows)
    intro r1 r2 hne
    intro rc h1 h2
    obtain ⟨c1, _, rfl⟩ := List.mem_map.mp h1
    obtain ⟨c2, _, heq⟩ := List.mem_map.mp h2
    exact hne (congrArg Prod.fst heq).symm

/-- The `Nat`-pair to `Int`-pair cast is injective. -/
theorem castPair_inj : Function.Injective
    (fun rc : Nat × Nat => ((rc.1 : Int), (rc.2 : Int))) := by
  intro a b h
  simp only [Prod.mk.injEq, Int.natCast_inj] at h
  exact Prod.ext h.1 h.2

/-- Generic uniqueness of the Bernoulli-fill folds of `initGrid` and
`buildNewRow`: over distinct cells, each step appends at most one active,
settled bubble sitting at its cell. -/
theorem foldBuild_spec {α : Type} (f : List Bubble → α → Bubble) (g : α → Bool)
    (cellOf : α → Int × Int)
    (hf : ∀ acc a, (f acc a).row = (cellOf a).1 ∧ (f acc a).col = (cellOf a).2 ∧
      (f acc a).active = true ∧ (f acc a).isFloating = false) :
    ∀ (cells : List α) (acc : List Bubble),
      (cells.map cellOf).Nodup →
      UniqueCells acc →
      (∀ b ∈ acc, ∀ a ∈ cells, ¬(b.row = (cellOf a).1 ∧ b.col = (cellOf a).2)) →
      UniqueCells (cells.foldl (fun acc a => if g a then acc ++ [f acc a] else acc) acc) ∧
      (∀ b ∈ cells.foldl (fun acc a => if g a then acc ++ [f acc a] else acc) acc,
        b ∈ acc ∨ (b.active = true ∧ b.isFloating = false ∧
          ∃ a ∈ cells, b.row = (cellOf a).1 ∧ b.col = (cellOf a).2)) := by
  intro cells
  induction cells with
  | nil =>
    intro acc _ hu _
    exact ⟨hu, fun b hb => Or.inl hb⟩
  | cons a rest ih =>
    intro acc hnd hu havoid
    rw [List.foldl_cons]
    have hnd' : (rest.map cellOf).Nodup := (List.nodup_cons.mp (by
      rw [List.map_cons] at hnd
      exact hnd)).2
    have hout : cellOf a ∉ rest.map cellOf := (List.nodup_cons.mp (by
      rw [List.map_cons] at hnd
      exact hnd)).1
    by_cases hga : g a = true
    · rw [if_pos hga]
      obtain ⟨hrow, hcol, hac, hfli⟩ := hf acc a
      have hu' : UniqueCells (acc ++ [f acc a]) := by
        unfold UniqueCells at hu ⊢
        rw [List.pairwise_append]
        refine ⟨hu, List.pairwise_singleton _ _, ?_⟩
        intro x hx y hy
        rw [List.mem_singleton.mp hy]
        intro hx1 hx2 _ _ hcells
        rw [hrow, hcol] at hcells
        exact havoid x hx a (List.mem_cons_self _ _) hcells
      have havoid' : ∀ b ∈ acc ++ [f acc a], ∀ a' ∈ rest,
          ¬(b.row = (cellOf a').1 ∧ b.col = (cellOf a').2) := by
        intro b hb a' ha' hcells
        rcases List.mem_append.mp hb with h | h
        · exact havoid b h a' (List.mem_cons_of_mem _ ha') hcells
        · rw [List.mem_singleton.mp h, hrow, hcol] at hcells
          exact hout ((Prod.ext hcells.1 hcells.2 : cellOf a = cellOf a').symm ▸
            List.mem_map_of_mem cellOf ha')
      obtain ⟨h1, h2⟩ := ih (acc ++ [f acc a]) hnd' hu' havoid'
      refine ⟨h1, fun b hb => ?_⟩
      rcases h2 b hb with h | ⟨hac', hfl', a', ha', hcells⟩
      · rcases List.mem_append.mp h with h' | h'
        · exact Or.inl h'
        · rw [List.mem_singleton.mp h']
          exact Or.inr ⟨hac, hfli, a, List.mem_cons_self _ _, hrow, hcol⟩
      · exact Or.inr ⟨hac', hfl', a', List.mem_cons_of_mem _ ha', hcells⟩
    · rw [if_neg hga]
      obtain ⟨h1, h2⟩ := ih acc hnd' hu
        (fun b hb a' ha' => havoid b hb a' (List.mem_cons_of_mem _ ha'))
      refine ⟨h1, fun b hb => ?_⟩
      rcases h2 b hb with h | ⟨hac', hfl', a', ha', hcells⟩
      · exact Or.inl h
      · exact Or.inr ⟨hac', hfl', a', List.mem_cons_of_mem _ ha', hcells⟩

/-- A fresh `initGrid` board holds pairwise-distinct cells of active, settled
spheres on nonnegative rows. -/
theorem initGrid_spec (width rh : ℚ) (difficulty : Difficulty) (o : InitOracle) :
    UniqueCells (initGrid width rh difficulty o) ∧
    ∀ b ∈ initGrid width rh difficulty o,
      b.active = true ∧ b.isFloating = false ∧ 0 ≤ b.row := by
  have hnodup : ((gridCells (DIFFICULTY_CONFIG difficulty).initialRows
      (computeGridCols width)).map (fun rc : Nat × Nat => ((rc.1 : Int), (rc.2 : Int)))).Nodup :=
    (gridCells_nodup _ _).map castPair_inj
  have h := foldBuild_spec
    (initCell width rh (computeGridCols width) (o.palette.take (numColorsFor difficulty)) o)
    (fun rc => o.fill rc.1 rc.2) (fun rc : Nat × Nat => ((rc.1 : Int), (rc.2 : Int)))
    (fun acc rc => ⟨rfl, rfl, rfl, rfl⟩)
    (gridCells (DIFFICULTY_CONFIG difficulty).initialRows (computeGridCols width)) []
    hnodup List.Pairwise.nil (fun b hb => absurd hb (List.not_mem_nil b))
  constructor
  · exact h.1
  · intro b hb
    rcases h.2 b hb with h' | ⟨hac, hfl, rc, _, hcells⟩
    · exact absurd h' (List.not_mem_nil b)
    · refine ⟨hac, hfl, ?_⟩
      rw [hcells.1]
      exact Int.natCast_nonneg _

/-- Row-shifting with position recomputation preserves cell-uniqueness. -/
theorem uniqueCells_bump (f : Bubble → Bubble)
    (hff : ∀ b, (f b).row = b.row + 1 ∧ (f b).col = b.col ∧ (f b).active = b.active ∧
      (f b).isFloating = b.isFloating)
    (l : List Bubble) (hu : UniqueCells l) : UniqueCells (l.map f) := by
  unfold UniqueCells at hu ⊢
  rw [List.pairwise_map]
  apply hu.imp
  intro a b hab ha1 ha2 hb1 hb2 hcells
  obtain ⟨har, hac, haa, haf⟩ := hff a
  obtain ⟨hbr, hbc, hba, hbf⟩ := hff b
  rw [har, hbr, hac, hbc] at hcells
  rw [haa] at ha1
  rw [haf] at ha2
  rw [hba] at hb1
  rw [hbf] at hb2
  exact hab ha1 ha2 hb1 hb2 ⟨by omega, hcells.2⟩


/-- `addNewRow` preserves cell-uniqueness and row nonnegativity of the
settled spheres. -/
theorem addNewRow_spec (cols : Nat) (rh width height : ℚ) (difficulty : Difficulty)
    (o : RowOracle) (board : List Bubble)
    (hu : UniqueCells board)
    (hrows : ∀ b ∈ board, b.active = true → b.isFloating = false → 0 ≤ b.row) :
    UniqueCells (addNewRow cols rh width height difficulty o board).1 ∧
    (∀ b ∈ (addNewRow cols rh width height difficulty o board).1,
      b.active = true → b.isFloating = false → 0 ≤ b.row) := by
  unfold addNewRow
  simp only
  have hbump : ∀ b : Bubble,
      ((fun b : Bubble =>
        let pos := getBubblePos cols rh (b.row + 1) b.col width
        { b with row := b.row + 1, x := pos.1, y := pos.2 }) b).row = b.row + 1 ∧
      ((fun b : Bubble =>
        let pos := getBubblePos cols rh (b.row + 1) b.col width
        { b with row := b.row + 1, x := pos.1, y := pos.2 }) b).col = b.col ∧
      ((fun b : Bubble =>
        let pos := getBubblePos cols rh (b.row + 1) b.col width
        { b with row := b.row + 1, x := pos.1, y := pos.2 }) b).active = b.active ∧
      ((fun b : Bubble =>
        let pos := getBubblePos cols rh (b.row + 1) b.col width
        { b with row := b.row + 1, x := pos.1, y := pos.2 }) b).isFloating = b.isFloating :=
    fun b => ⟨rfl, rfl, rfl, rfl⟩
  have hsu : UniqueCells (board.map (fun b : Bubble =>
      let pos := getBubblePos cols rh (b.row + 1) b.col width
      { b with row := b.row + 1, x := pos.1, y := pos.2 })) :=
    uniqueCells_bump _ hbump board hu
  have hsrows : ∀ b ∈ board.map (fun b : Bubble =>
      let pos := getBubblePos cols rh (b.row + 1) b.col width
      { b with row := b.row + 1, x := pos.1, y := pos.2 }),
      b.active = true → b.isFloating = false → 1 ≤ b.row := by
    intro b hb hba hbf
    obtain ⟨b₀, hb₀, rfl⟩ := List.mem_map.mp hb
    have h0 : 0 ≤ b₀.row := hrows b₀ hb₀ hba hbf
    simp only
    omega
  split
  · exact ⟨hsu, fun b hb hba hbf => le_trans (by omega) (hsrows b hb hba hbf)⟩
  · have hnodup : (((List.range cols)).map (fun c : Nat => ((0 : Int), (c : Int)))).Nodup := by
      have hinj : Function.Injective (fun c : Nat => ((0 : Int), (c : Int))) := by
        intro c1 c2 h
        simp only [Prod.mk.injEq, Int.natCast_inj] at h
        exact h.2
      exact (List.nodup_range _).map hinj
    have hnew := foldBuild_spec
      (rowCell cols rh width difficulty o (board.map (fun b : Bubble =>
        let pos := getBubblePos cols rh (b.row + 1) b.col width
        { b with row := b.row + 1, x := pos.1, y := pos.2 })))
      o.fill (fun c : Nat => ((0 : Int), (c : Int)))
      (fun acc c => ⟨rfl, rfl, rfl, rfl⟩)
      (List.range cols) [] hnodup List.Pairwise.nil
      (fun b hb => absurd hb (List.not_mem_nil b))
    constructor
    · unfold UniqueCells at hsu ⊢
      rw [List.pairwise_append]
      refine ⟨hsu, hnew.1, ?_⟩
      intro x hx y hy hx1 hx2 hy1 hy2 hcells
      rcases hnew.2 y hy with h | ⟨_, _, c, _, hrow, _⟩
      · exact absurd h (List.not_mem_nil y)
      · have hxr : 1 ≤ x.row := hsrows x hx hx1 hx2
        simp only at hrow
        rw [hrow] at hcells
        omega
    · intro b hb hba hbf
      rcases List.mem_append.mp hb with h | h
      · exact le_trans (by omega) (hsrows b h hba hbf)
      · rcases hnew.2 b h with h' | ⟨_, _, c, _, hrow, _⟩
        · exact absurd h' (List.not_mem_nil b)
        · simp only at hrow
          omega

/-- The snap scan's fold: once (or as soon as) a free cell is seen, the
running best cell is free. -/
theorem snapFold_spec (board : List Bubble) (cols : Nat) (rh width ballX ballY : ℚ) :
    ∀ (cells : List (Nat × Nat)) (acc : Option ℚ × (Nat × Nat) × (ℚ × ℚ)),
      (acc.1 ≠ none → cellOccupied board acc.2.1.1 acc.2.1.2 = false) →
      ((∃ rc ∈ cells, cellOccupied board rc.1 rc.2 = false) ∨ acc.1 ≠ none) →
      (cells.foldl
        (fun acc rc =>
          if cellOccupied board rc.1 rc.2 then acc
          else
            let pos := getBubblePos cols rh rc.1 rc.2 width
            let d := (ballX - pos.1) ^ 2 + (ballY - pos.2) ^ 2
            match acc.1 with
            | none => (some d, rc, pos)
            | some bd => if d < bd then (some d, rc, pos) else acc) acc).1 ≠ none ∧
      cellOccupied board
        ((cells.foldl
          (fun acc rc =>
            if cellOccupied board rc.1 rc.2 then acc
            else
              let pos := getBubblePos cols rh rc.1 rc.2 width
              let d := (ballX - pos.1) ^ 2 + (ballY - pos.2) ^ 2
              match acc.1 with
              | none => (some d, rc, pos)
              | some bd => if d < bd then (some d, rc, pos) else acc) acc)).2.1.1
        ((cells.foldl
          (fun acc rc =>
            if cellOccupied board rc.1 rc.2 then acc
            else
              let pos := getBubblePos cols rh rc.1 rc.2 width
              let d := (ballX - pos.1) ^ 2 + (ballY - pos.2) ^ 2
              match acc.1 with
              | none => (some d, rc, pos)
              | some bd => if d < bd then (some d, rc, pos) else acc) acc)).2.1.2 = false := by
  intro cells
  induction cells with
  | nil =>
    intro acc hinv hex
    rcases hex with ⟨rc, hrc, _⟩ | hne
    · exact absurd hrc (List.not_mem_nil rc)
    · exact ⟨hne, hinv hne⟩
  | cons rc rest ih =>
    intro acc hinv hex
    rw [List.foldl_cons]
    by_cases hocc : cellOccupied board rc.1 rc.2 = true
    · rw [if_pos hocc]
      apply ih acc hinv
      rcases hex with ⟨rc', hrc', hfree⟩ | hne
      · rcases List.mem_cons.mp hrc' with heq | hmem
        · rw [heq, hocc] at hfree
          exact absurd hfree (by simp)
        · exact Or.inl ⟨rc', hmem, hfree⟩
      · exact Or.inr hne
    · rw [if_neg hocc]
      have hfree : cellOccupied board rc.1 rc.2 = false := Bool.eq_false_iff.mpr hocc
      apply ih
      · rcases hacc : acc.1 with _ | bd
        · dsimp only
          intro _
          exact hfree
        · dsimp only
          by_cases hd : ((ballX - (getBubblePos cols rh rc.1 rc.2 width).1) ^ 2 +
              (ballY - (getBubblePos cols rh rc.1 rc.2 width).2) ^ 2) < bd
          · rw [if_pos hd]
            intro _
            exact hfree
          · rw [if_neg hd]
            intro _
            exact hinv (by rw [hacc]; simp)
      · right
        rcases hacc : acc.1 with _ | bd
        · dsimp only
          simp
        · dsimp only
          by_cases hd : ((ballX - (getBubblePos cols rh rc.1 rc.2 width).1) ^ 2 +
              (ballY - (getBubblePos cols rh rc.1 rc.2 width).2) ^ 2) < bd
          · rw [if_pos hd]
            simp
          · rw [if_neg hd, hacc]
            simp

/-- Unoccupancy transfers to the cell-inequality needed for uniqueness. -/
theorem cellOccupied_false {board : List Bubble} {r c : Nat}
    (h : cellOccupied board r c = false) :
    ∀ b ∈ board, b.active = true → b.isFloating = false →
      ¬(b.row = (r : Int) ∧ b.col = (c : Int)) := by
  intro b hb hba hbf hcells
  rw [cellOccupied, List.any_eq_false] at h
  have hb' := h b hb
  simp only [Bool.and_eq_true, Bool.not_eq_true', beq_iff_eq, not_and] at hb'
  exact hb' ⟨⟨hba, hbf⟩, hcells.1⟩ hcells.2

/-- `snapInsert` preserves cell-uniqueness when the scan window still has a
free cell, and keeps rows nonnegative. -/
theorem snapInsert_spec (board : List Bubble) (cols : Nat) (rh width ballX ballY : ℚ)
    (idv : Nat) (color : BubbleColor)
    (hu : UniqueCells board)
    (hrows : ∀ b ∈ board, b.active = true → b.isFloating = false → 0 ≤ b.row)
    (hfree : windowHasFree board cols = true) :
    UniqueCells (snapInsert board cols rh width ballX ballY idv color) ∧
    (∀ b ∈ snapInsert board cols rh width ballX ballY idv color,
      b.active = true → b.isFloating = false → 0 ≤ b.row) := by
  have hex : ∃ rc ∈ windowCells cols, cellOccupied board rc.1 rc.2 = false := by
    rw [windowHasFree, List.any_eq_true] at hfree
    obtain ⟨rc, hrc, hf⟩ := hfree
    rw [Bool.not_eq_true'] at hf
    exact ⟨rc, hrc, hf⟩
  have hscan := snapFold_spec board cols rh width ballX ballY (windowCells cols)
    (none, (0, 0), (0, 0)) (fun h => absurd rfl h) (Or.inl hex)
  have hbest : cellOccupied board (snapBest board cols rh width ballX ballY).2.1.1
      (snapBest board cols rh width ballX ballY).2.1.2 = false := hscan.2
  unfold snapInsert
  simp only
  constructor
  · unfold UniqueCells at hu ⊢
    rw [List.pairwise_append]
    refine ⟨hu, List.pairwise_singleton _ _, ?_⟩
    intro x hx y hy
    rw [List.mem_singleton.mp hy]
    intro hx1 hx2 _ _ hcells
    exact cellOccupied_false hbest x hx hx1 hx2 hcells
  · intro b hb hba hbf
    rcases List.mem_append.mp hb with h | h
    · exact hrows b h hba hbf
    · rw [List.mem_singleton.mp h]
      exact Int.natCast_nonneg _

/-- The residual status mutations of `completeMatch` keep cells, only retire
spheres from the settled set, and keep rows. -/
theorem uniqueCells_statusMap (f : Bubble → Bubble)
    (hf : ∀ b, (f b).row = b.row ∧ (f b).col = b.col ∧
      ((f b).active = true → b.active = true) ∧
      ((f b).isFloating = false → b.isFloating = false))
    (l : List Bubble) (hu : UniqueCells l)
    (hrows : ∀ b ∈ l, b.active = true → b.isFloating = false → 0 ≤ b.row) :
    UniqueCells (l.map f) ∧
    (∀ b ∈ l.map f, b.active = true → b.isFloating = false → 0 ≤ b.row) := by
  constructor
  · unfold UniqueCells at hu ⊢
    rw [List.pairwise_map]
    apply hu.imp
    intro a b hab ha1 ha2 hb1 hb2 hcells
    obtain ⟨har, hac, haa, haf⟩ := hf a
    obtain ⟨hbr, hbc, hba, hbf⟩ := hf b
    rw [har, hbr, hac, hbc] at hcells
    exact hab (haa ha1) (haf ha2) (hba hb1) (hbf hb2) hcells
  · intro b hb hba hbf
    obtain ⟨b₀, hb₀, rfl⟩ := List.mem_map.mp hb
    obtain ⟨har, _, haa, haf⟩ := hf b₀
    rw [har]
    exact hrows b₀ hb₀ (haa hba) (haf hbf)

theorem deactivate_status (pending : List Bubble) (now : ℚ) (b : Bubble) :
    (deactivate pending now b).row = b.row ∧ (deactivate pending now b).col = b.col ∧
      ((deactivate pending now b).active = true → b.active = true) ∧
      ((deactivate pending now b).isFloating = false → b.isFloating = false) := by
  unfold deactivate
  split
  · exact ⟨rfl, rfl, fun h => absurd h (by simp), fun h => h⟩
  · exact ⟨rfl, rfl, fun h => h, fun h => h⟩

theorem markFloating_status (floating : List Bubble) (b : Bubble) :
    (markFloating floating b).row = b.row ∧ (markFloating floating b).col = b.col ∧
      ((markFloating floating b).active = true → b.active = true) ∧
      ((markFloating floating b).isFloating = false → b.isFloating = false) := by
  unfold markFloating
  split
  · exact ⟨rfl, rfl, fun h => h, fun h => absurd h (by simp)⟩
  · exact ⟨rfl, rfl, fun h => h, fun h => h⟩

/-- `completeMatch` preserves cell-uniqueness and row nonnegativity (given a
well-formed reseed board). -/
theorem completeMatch_spec (awarded : Bool) (pending board : List Bubble) (score : Nat)
    (now : ℚ) (reseed : List Bubble)
    (hu : UniqueCells board)
    (hrows : ∀ b ∈ board, b.active = true → b.isFloating = false → 0 ≤ b.row)
    (hur : UniqueCells reseed)
    (hrr : ∀ b ∈ reseed, b.active = true → b.isFloating = false → 0 ≤ b.row) :
    UniqueCells (completeMatch awarded pending board score now reseed).board ∧
    (∀ b ∈ (completeMatch awarded pending board score now reseed).board,
      b.active = true → b.isFloating = false → 0 ≤ b.row) := by
  have h1 := uniqueCells_statusMap (deactivate pending now) (deactivate_status pending now)
    board hu hrows
  have h2 := uniqueCells_statusMap
    (markFloating (findFloatingBubbles (board.map (deactivate pending now))))
    (markFloating_status _) _ h1.1 h1.2
  cases awarded with
  | true =>
    rw [completeMatch_true_eq]
    simp only
    by_cases hlen : (findFloatingBubbles (board.map (deactivate pending now))).length > 0
    · rw [if_pos hlen]
      split
      · exact ⟨hur, hrr⟩
      · exact h2
    · rw [if_neg hlen]
      split
      · exact ⟨hur, hrr⟩
      · exact h1
  | false =>
    have hsh : completeMatch false pending board score now reseed =
        if (board.filter (fun b => b.active && !b.isFloating)).length = 0 then
          { board := reseed, score := score, reseeded := true }
        else { board := board, score := score, reseeded := false } := rfl
    rw [hsh]
    split
    · exact ⟨hur, hrr⟩
    · exact ⟨hu, hrows⟩

/-- Invariant: every board reachable with snap insertions restricted to
nonfull windows holds uniquely-placed settled spheres on nonnegative rows. -/
theorem reachableG_spec (rh width height : ℚ) (difficulty : Difficulty) :
    ∀ board, ReachableBoardG rh width height difficulty board →
      UniqueCells board ∧
      (∀ b ∈ board, b.active = true → b.isFloating = false → 0 ≤ b.row) := by
  intro board h
  induction h with
  | init o =>
    exact ⟨(initGrid_spec width rh difficulty o).1,
      fun b hb _ _ => ((initGrid_spec width rh difficulty o).2 b hb).2.2⟩
  | spawn o _ ih => exact addNewRow_spec _ rh width height difficulty o _ ih.1 ih.2
  | snap ballX ballY idv color hfree _ ih =>
    exact snapInsert_spec _ _ rh width ballX ballY idv color ih.1 ih.2 hfree
  | confirm awarded pending score now oReseed _ ih =>
    exact completeMatch_spec awarded pending _ score now _ ih.1 ih.2
      (initGrid_spec width rh difficulty oReseed).1
      (fun b hb _ _ => ((initGrid_spec width rh difficulty oReseed).2 b hb).2.2)

/-- C6 (amended): starting from an initial grid, any sequence of row spawns,
match confirmations, and snap insertions whose scan window still holds an
unoccupied cell keeps the board's active non-floating spheres on pairwise
distinct `(row, col)` cells. -/
theorem c6_unique_cells (rh width height : ℚ) (difficulty : Difficulty)
    (board : List Bubble) (h : ReachableBoardG rh width height difficulty board) :
    UniqueCells board :=
  (reachableG_spec rh width height difficulty board h).1

/-- C6 witness: the fresh (here empty) Easy grid at width 100. -/
theorem c6_witness :
    UniqueCells (initGrid 100 35 .Easy
      { palette := COLOR_KEYS, fill := fun _ _ => false, colorPick := fun _ _ => 0,
        newId := fun r c => 1000 + r * 100 + c }) :=
  c6_unique_cells 35 100 10000 .Easy _ (ReachableBoardG.init _)

/-- Oracle for the counterexample's initial grid: every density draw fails,
so the initial board is empty. -/
def cexInitOracle : InitOracle :=
  { palette := COLOR_KEYS, fill := fun _ _ => false, colorPick := fun _ _ => 0,
    newId := fun r c => 1000 + r * 100 + c }

/-- Oracle for the counterexample's row spawns: every density draw succeeds
and all color draws take index 0. -/
def cexRowOracle : RowOracle :=
  { fill := fun _ => true, colorRand := fun _ => ⟨0, 0, false, 0, 0⟩,
    newId := fun c => 2000 + c }

/-- One row spawn of the counterexample run (`width = 100` gives 5 columns;
`rh = 35` stands in for `ROW_HEIGHT`; the canvas is tall, so the loss line is
never crossed). -/
def cexSpawn (b : List Bubble) : List Bubble :=
  (addNewRow (computeGridCols 100) 35 100 10000 .Easy cexRowOracle b).1

/-- Twenty full spawns fill rows 0-19 — the whole snap scan window. -/
def cexBoard20 : List Bubble :=
  cexSpawn (cexSpawn (cexSpawn (cexSpawn (cexSpawn (cexSpawn (cexSpawn (cexSpawn (cexSpawn (cexSpawn (cexSpawn (cexSpawn (cexSpawn (cexSpawn (cexSpawn (cexSpawn (cexSpawn (cexSpawn (cexSpawn (cexSpawn (initGrid 100 35 .Easy cexInitOracle))))))))))))))))))))

/-- The counterexample board: a snap insertion into the full window lands on
the 0-initialized best cell `(0, 0)`, which is occupied. -/
def cexBoard : List Bubble :=
  snapInsert cexBoard20 (computeGridCols 100) 35 100 0 0 9999 .red

unseal Rat.add Rat.sub Rat.mul Rat.inv in
set_option maxRecDepth 100000 in
set_option maxHeartbeats 4000000 in
/-- C6, counterexample: the uniqueness claim fails as stated.  From an empty
Easy grid, twenty all-full row spawns occupy every cell of the bounded snap
window (rows 0-19); the next snap insertion then falls back to the
0-initialized scan seed and pushes a second active settled sphere onto the
occupied cell `(0, 0)`. -/
theorem c6_counterexample :
    ReachableBoard 35 100 10000 .Easy cexBoard ∧ ¬UniqueCells cexBoard := by
  constructor
  · exact ReachableBoard.snap 0 0 9999 .red
      (ReachableBoard.spawn cexRowOracle (ReachableBoard.spawn cexRowOracle (ReachableBoard.spawn cexRowOracle (ReachableBoard.spawn cexRowOracle (ReachableBoard.spawn cexRowOracle (ReachableBoard.spawn cexRowOracle (ReachableBoard.spawn cexRowOracle (ReachableBoard.spawn cexRowOracle (ReachableBoard.spawn cexRowOracle (ReachableBoard.spawn cexRowOracle (ReachableBoard.spawn cexRowOracle (ReachableBoard.spawn cexRowOracle (ReachableBoard.spawn cexRowOracle (ReachableBoard.spawn cexRowOracle (ReachableBoard.spawn cexRowOracle (ReachableBoard.spawn cexRowOracle (ReachableBoard.spawn cexRowOracle (ReachableBoard.spawn cexRowOracle (ReachableBoard.spawn cexRowOracle (ReachableBoard.spawn cexRowOracle (ReachableBoard.init cexInitOracle)))))))))))))))))))))
  · decide

end Slingshot
